import Mathlib

/-! LedasTechTask: intersection of two segments in 3-D space.

A shallow embedding of `LedasTechTask.cpp`, in two readings of the C++ `double`.

* Exact arithmetic: `double` is an element of an arbitrary linearly ordered field `K`, and the
  literal `1e-8` is the number `10^(-8)`.  Every definition is the source function with `double`
  replaced by `K`, and can be evaluated at `K := ℚ`.  Statements made "in exact real arithmetic"
  are about these definitions.
* Binary64: `double` is an IEEE 754 binary64 datum (`Double`) and every operation rounds; the
  definitions are in the namespace `Binary64`.  Statements about what the program computes on
  concrete doubles are about these definitions.

The `std::unique_ptr<Vector3D>` returned by `Intercept` is an `Option`: `nullptr` is `none`.
-/

namespace LedasTechTask

/-- The tolerance `constexpr auto eps = 1e-8;`. -/
def eps {K : Type} [LinearOrderedField K] : K := 1e-8

/-- The class `Vector3D`: three coordinates. -/
@[ext]
structure Vector3D (K : Type) where
  x : K
  y : K
  z : K
deriving DecidableEq

namespace Vector3D

variable {K : Type} [LinearOrderedField K]

/-- The accessor `GetX`. -/
def GetX (v : Vector3D K) : K := v.x

/-- The accessor `GetY`. -/
def GetY (v : Vector3D K) : K := v.y

/-- The accessor `GetZ`. -/
def GetZ (v : Vector3D K) : K := v.z

/-- The method `Vector3D::Length`: `x * x + y * y + z * z` (no square root). -/
def Length (v : Vector3D K) : K := v.x * v.x + v.y * v.y + v.z * v.z

end Vector3D

section Algebra

variable {K : Type} [LinearOrderedField K]

/-- The free function `CrossProduct`. -/
def CrossProduct (a b : Vector3D K) : Vector3D K :=
  { x := a.GetY * b.GetZ - a.GetZ * b.GetY
    y := a.GetZ * b.GetX - a.GetX * b.GetZ
    z := a.GetX * b.GetY - a.GetY * b.GetX }

/-- The free function `ScalarProduct`. -/
def ScalarProduct (a b : Vector3D K) : K :=
  a.GetX * b.GetX + a.GetY * b.GetY + a.GetZ * b.GetZ

/-- The free function `Subtract`. -/
def Subtract (a b : Vector3D K) : Vector3D K :=
  { x := a.GetX - b.GetX, y := a.GetY - b.GetY, z := a.GetZ - b.GetZ }

end Algebra

/-- The class `Segment3D`: a start point and an end point. -/
@[ext]
structure Segment3D (K : Type) where
  start : Vector3D K
  «end» : Vector3D K
deriving DecidableEq

namespace Segment3D

variable {K : Type} [LinearOrderedField K]

/-- The accessor `GetStart`. -/
def GetStart (s : Segment3D K) : Vector3D K := s.start

/-- The accessor `GetEnd`. -/
def GetEnd (s : Segment3D K) : Vector3D K := s.«end»

/-- The method `Segment3D::Length`. -/
def Length (s : Segment3D K) : K :=
  let v := Subtract s.«end» s.start
  ScalarProduct v v

end Segment3D

section Solver

variable {K : Type} [LinearOrderedField K]

/-- The function `Intercept`: `none` is the null pointer. -/
def Intercept (seg1 seg2 : Segment3D K) : Option (Vector3D K) :=
  let v_s1 := Subtract seg1.GetEnd seg1.GetStart
  let v_s2 := Subtract seg2.GetEnd seg2.GetStart
  let v_s1s2 := Subtract seg2.GetStart seg1.GetStart
  let S1crossS2 := CrossProduct v_s1 v_s2
  let crossV_length := S1crossS2.Length
  if crossV_length < eps then
    none
  else
    let t1 := ScalarProduct (CrossProduct v_s1s2 v_s2) S1crossS2 / crossV_length
    let t2 := ScalarProduct (CrossProduct v_s1s2 v_s1) S1crossS2 / crossV_length
    if t1 ≥ 0 ∧ t1 ≤ 1 ∧ t2 ≥ 0 ∧ t2 ≤ 1 then
      some { x := seg1.GetStart.GetX + t1 * v_s1.GetX
             y := seg1.GetStart.GetY + t1 * v_s1.GetY
             z := seg1.GetStart.GetZ + t1 * v_s1.GetZ }
    else
      none

end Solver

section Vocabulary

variable {K : Type} [LinearOrderedField K]

/-- Direction vector of a segment, `Subtract(seg.GetEnd(), seg.GetStart())`: the `v_s1`, `v_s2` of
`Intercept`, the `d1`, `d2` of the algorithm's description. -/
def direction (seg : Segment3D K) : Vector3D K := Subtract seg.GetEnd seg.GetStart

/-- Vector from the start of `seg1` to the start of `seg2`: the `v_s1s2` of `Intercept` (`d12`). -/
def startOffset (seg1 seg2 : Segment3D K) : Vector3D K := Subtract seg2.GetStart seg1.GetStart

/-- Cross product of the two directions: the `S1crossS2` of `Intercept` (`n`). -/
def normal (seg1 seg2 : Segment3D K) : Vector3D K :=
  CrossProduct (direction seg1) (direction seg2)

/-- Squared magnitude of the cross product: the `crossV_length` of `Intercept` (`m`). -/
def crossNormSq (seg1 seg2 : Segment3D K) : K := (normal seg1 seg2).Length

/-- Parameter along the first segment: `t1 = dot(cross(d12, d2), n) / m`. -/
def t1 (seg1 seg2 : Segment3D K) : K :=
  ScalarProduct (CrossProduct (startOffset seg1 seg2) (direction seg2)) (normal seg1 seg2)
    / crossNormSq seg1 seg2

/-- Parameter along the second segment: `t2 = dot(cross(d12, d1), n) / m`. -/
def t2 (seg1 seg2 : Segment3D K) : K :=
  ScalarProduct (CrossProduct (startOffset seg1 seg2) (direction seg1)) (normal seg1 seg2)
    / crossNormSq seg1 seg2

/-- Point of the supporting line of `seg` at parameter `t`: `seg.start + t * (seg.end - seg.start)`. -/
def pointAt (seg : Segment3D K) (t : K) : Vector3D K :=
  { x := seg.start.x + t * (seg.«end».x - seg.start.x)
    y := seg.start.y + t * (seg.«end».y - seg.start.y)
    z := seg.start.z + t * (seg.«end».z - seg.start.z) }

/-- A point lies on a segment when it is `pointAt seg s` for a parameter `s` in `[0, 1]`. -/
def OnSegment (seg : Segment3D K) (P : Vector3D K) : Prop :=
  ∃ s : K, 0 ≤ s ∧ s ≤ 1 ∧ P = pointAt seg s

/-- A point lies on the supporting line of a segment (any parameter). -/
def OnLine (seg : Segment3D K) (P : Vector3D K) : Prop :=
  ∃ s : K, P = pointAt seg s

/-- The supporting lines are coplanar: `dot(seg2.start - seg1.start, cross(d1, d2)) = 0`. -/
def Coplanar (seg1 seg2 : Segment3D K) : Prop :=
  ScalarProduct (startOffset seg1 seg2) (normal seg1 seg2) = 0

/-- The vector `k * v`. -/
def scale (k : K) (v : Vector3D K) : Vector3D K := { x := k * v.x, y := k * v.y, z := k * v.z }

/-- The zero vector. -/
def zeroVector : Vector3D K := { x := 0, y := 0, z := 0 }

/-- The segment with the same two endpoints in the other order. -/
def Segment3D.reversed (seg : Segment3D K) : Segment3D K :=
  { start := seg.«end», «end» := seg.start }

/-- The point `E` is an endpoint of `seg`. -/
def IsEndpoint (seg : Segment3D K) (E : Vector3D K) : Prop := E = seg.start ∨ E = seg.«end»

/-- The two segments share exactly one endpoint, and it is `E`. -/
def ShareExactlyOneEndpoint (seg1 seg2 : Segment3D K) (E : Vector3D K) : Prop :=
  IsEndpoint seg1 E ∧ IsEndpoint seg2 E ∧
    ∀ F : Vector3D K, IsEndpoint seg1 F → IsEndpoint seg2 F → F = E

/-- The point `P` moved by the vector `v`. -/
def translatePoint (v P : Vector3D K) : Vector3D K :=
  { x := P.x + v.x, y := P.y + v.y, z := P.z + v.z }

/-- The segment `seg` with both endpoints moved by the vector `v`. -/
def translate (v : Vector3D K) (seg : Segment3D K) : Segment3D K :=
  { start := translatePoint v seg.start, «end» := translatePoint v seg.«end» }

end Vocabulary

section Checked

variable {K : Type} [LinearOrderedField K]

/-- Division that reports a zero divisor instead of computing with it. -/
def checkedDiv (a b : K) : Option K := if b = 0 then none else some (a / b)

/-- The function `Intercept` with both divisions checked: the outer `none` is a division by
zero, the inner option is the returned pointer. -/
def InterceptChecked (seg1 seg2 : Segment3D K) : Option (Option (Vector3D K)) :=
  let v_s1 := Subtract seg1.GetEnd seg1.GetStart
  let v_s2 := Subtract seg2.GetEnd seg2.GetStart
  let v_s1s2 := Subtract seg2.GetStart seg1.GetStart
  let S1crossS2 := CrossProduct v_s1 v_s2
  let crossV_length := S1crossS2.Length
  if crossV_length < eps then
    some none
  else
    (checkedDiv (ScalarProduct (CrossProduct v_s1s2 v_s2) S1crossS2) crossV_length).bind fun t1 =>
    (checkedDiv (ScalarProduct (CrossProduct v_s1s2 v_s1) S1crossS2) crossV_length).bind fun t2 =>
    if t1 ≥ 0 ∧ t1 ≤ 1 ∧ t2 ≥ 0 ∧ t2 ≤ 1 then
      some (some { x := seg1.GetStart.GetX + t1 * v_s1.GetX
                   y := seg1.GetStart.GetY + t1 * v_s1.GetY
                   z := seg1.GetStart.GetZ + t1 * v_s1.GetZ })
    else
      some none

/-- The divisors of the divisions `Intercept` evaluates, in order of evaluation. -/
def InterceptDivisors (seg1 seg2 : Segment3D K) : List K :=
  let v_s1 := Subtract seg1.GetEnd seg1.GetStart
  let v_s2 := Subtract seg2.GetEnd seg2.GetStart
  let S1crossS2 := CrossProduct v_s1 v_s2
  let crossV_length := S1crossS2.Length
  if crossV_length < eps then
    []
  else
    [crossV_length, crossV_length]

end Checked

section Driver

variable {K : Type} [LinearOrderedField K]

/-- What the driver writes to standard output: the returned pointer, or a fixed message. -/
inductive Output (K : Type) where
  | pointer (p : Vector3D K)
  | message (text : String)
deriving DecidableEq

/-- The segment `s1` of `main`. -/
def main_s1 : Segment3D K := { start := ⟨0, 3, 3⟩, «end» := ⟨3, 3, 3⟩ }

/-- The segment `s2` of `main`. -/
def main_s2 : Segment3D K := { start := ⟨0, 0, 0⟩, «end» := ⟨11, 5, 0⟩ }

/-- The driver `main`. -/
def main : Output K :=
  match Intercept (main_s1 : Segment3D K) main_s2 with
  | some p => Output.pointer p
  | none => Output.message ("No intersection point found.")

end Driver

/-! ## The program on IEEE 754 binary64

The same functions with `double` read as binary64: every arithmetic operation is the exact
result rounded to nearest, ties to even, with gradual underflow, overflow to infinity, signed
zeros and NaN; comparisons with a NaN are false.  Each operation is rounded on its own (no fused
multiply-add, no extended precision).  The accessors `GetX`, `GetY`, `GetZ`, `GetStart`, `GetEnd`
are written as field projections. -/

section Binary64Model

/-- IEEE 754 binary64 datum: a finite value (kept as the exact rational it denotes; `fin 0` is
`+0`), the negative zero, an infinity with its sign bit, or a NaN.  Literals and the results of
the operations below are always rounded, hence representable. -/
inductive Double where
  | fin (q : ℚ)
  | negZero
  | inf (neg : Bool)
  | nan
deriving DecidableEq

namespace Double

/-- Number of halvings that bring `n` below `2`, with `fuel` as recursion bound. -/
def log2Fuel : Nat → Nat → Nat
  | 0, _ => 0
  | fuel + 1, n => if n < 2 then 0 else log2Fuel fuel (n / 2) + 1

/-- Floor of the binary logarithm of a positive natural number. -/
def natLog2 (n : Nat) : Nat := log2Fuel n n

/-- Floor of the binary logarithm of the positive rational `n / d`. -/
def floorLog2 (n d : Nat) : Int :=
  let e0 : Int := (natLog2 n : Int) - (natLog2 d : Int)
  if 0 ≤ e0 then
    if d * 2 ^ e0.toNat ≤ n then e0 else e0 - 1
  else
    if d ≤ n * 2 ^ (-e0).toNat then e0 else e0 - 1

/-- Nearest natural number to `n / d`, ties to the even one. -/
def roundHalfEven (n d : Nat) : Nat :=
  let k := n / d
  let r := n % d
  if 2 * r < d then k else if d < 2 * r then k + 1 else if k % 2 = 0 then k else k + 1

/-- A zero with the given sign bit. -/
def zero (neg : Bool) : Double := if neg then negZero else fin 0

/-- Round-to-nearest, ties-to-even, of the real number `(-1)^neg * n / d` (`d > 0`) to binary64:
53 significant bits, least exponent `-1074` (gradual underflow), overflow to infinity from
`2^1024` on. -/
def round (neg : Bool) (n d : Nat) : Double :=
  if n = 0 then zero neg
  else
    let p : Int := max (floorLog2 n d - 52) (-1074)
    if 0 ≤ p then
      let k := roundHalfEven n (d * 2 ^ p.toNat)
      let v := k * 2 ^ p.toNat
      if 2 ^ 1024 ≤ v then inf neg
      else fin (mkRat (if neg then -(v : Int) else (v : Int)) 1)
    else
      let k := roundHalfEven (n * 2 ^ (-p).toNat) d
      if k = 0 then zero neg
      else fin (mkRat (if neg then -(k : Int) else (k : Int)) (2 ^ (-p).toNat))

/-- The binary64 nearest to a rational number. -/
def ofRat (q : ℚ) : Double := round (decide (q.num < 0)) q.num.natAbs q.den

/-- Sign bit. -/
def isNeg : Double → Bool
  | fin q => decide (q.num < 0)
  | negZero => true
  | inf neg => neg
  | nan => false

/-- The datum is `+0` or `-0`. -/
def isZero : Double → Bool
  | fin q => decide (q.num = 0)
  | negZero => true
  | _ => false

/-- Numerator of the magnitude of a finite datum. -/
def absNum : Double → Nat
  | fin q => q.num.natAbs
  | _ => 0

/-- Denominator of the magnitude of a finite datum. -/
def den : Double → Nat
  | fin q => q.den
  | _ => 1

/-- The rational value of a finite datum (both zeros are `0`). -/
def toRat : Double → ℚ
  | fin q => q
  | _ => 0

/-- Unary minus: flips the sign bit. -/
def neg : Double → Double
  | fin q => if q.num = 0 then negZero else fin (-q)
  | negZero => fin 0
  | inf s => inf (!s)
  | nan => nan

/-- Addition `x + y`. -/
def add : Double → Double → Double
  | nan, _ => nan
  | _, nan => nan
  | inf a, inf b => if a = b then inf a else nan
  | inf a, _ => inf a
  | _, inf b => inf b
  | x, y =>
    if x.isZero && y.isZero then zero (x.isNeg && y.isNeg)
    else ofRat (x.toRat + y.toRat)

/-- Subtraction `x - y`. -/
def sub (x y : Double) : Double := add x (neg y)

/-- Multiplication `x * y`. -/
def mul : Double → Double → Double
  | nan, _ => nan
  | _, nan => nan
  | inf a, y => if y.isZero then nan else inf (a != y.isNeg)
  | x, inf b => if x.isZero then nan else inf (x.isNeg != b)
  | x, y => round (x.isNeg != y.isNeg) (x.absNum * y.absNum) (x.den * y.den)

/-- Division `x / y`. -/
def div : Double → Double → Double
  | nan, _ => nan
  | _, nan => nan
  | inf _, inf _ => nan
  | inf a, y => inf (a != y.isNeg)
  | x, inf b => zero (x.isNeg != b)
  | x, y =>
    if y.isZero then (if x.isZero then nan else inf (x.isNeg != y.isNeg))
    else round (x.isNeg != y.isNeg) (x.absNum * y.den) (x.den * y.absNum)

/-- Comparison `x < y`: false as soon as one side is a NaN. -/
def lt : Double → Double → Bool
  | nan, _ => false
  | _, nan => false
  | inf a, inf b => a && !b
  | inf a, _ => a
  | _, inf b => !b
  | x, y => decide (x.toRat < y.toRat)

/-- Comparison `x <= y`: false as soon as one side is a NaN. -/
def le : Double → Double → Bool
  | nan, _ => false
  | _, nan => false
  | inf a, inf b => a || !b
  | inf a, _ => a
  | _, inf b => !b
  | x, y => decide (x.toRat ≤ y.toRat)

/-- Comparison `x >= y`. -/
def ge (x y : Double) : Bool := le y x

/-- Comparison `x == y`: false for a NaN, true for the two zeros. -/
def eq : Double → Double → Bool
  | nan, _ => false
  | _, nan => false
  | inf a, inf b => a == b
  | inf _, _ => false
  | _, inf _ => false
  | x, y => decide (x.toRat = y.toRat)

instance : Add Double := ⟨add⟩
instance : Sub Double := ⟨sub⟩
instance : Mul Double := ⟨mul⟩
instance : Div Double := ⟨div⟩
instance : Neg Double := ⟨neg⟩

/-- A decimal literal of the source, converted to the nearest binary64. -/
instance : OfScientific Double where
  ofScientific mantissa exponentSign decimalExponent :=
    if exponentSign then round false mantissa (10 ^ decimalExponent)
    else round false (mantissa * 10 ^ decimalExponent) 1

instance (n : Nat) : OfNat Double n := ⟨round false n 1⟩

end Double

namespace Binary64

/-- The tolerance `constexpr auto eps = 1e-8;` as the compiler stores it. -/
def eps : Double := 1e-8

/-- The method `Vector3D::Length` on doubles. -/
def Vector3D.Length (v : Vector3D Double) : Double := v.x * v.x + v.y * v.y + v.z * v.z

/-- The free function `CrossProduct` on doubles. -/
def CrossProduct (a b : Vector3D Double) : Vector3D Double :=
  { x := a.y * b.z - a.z * b.y
    y := a.z * b.x - a.x * b.z
    z := a.x * b.y - a.y * b.x }

/-- The free function `ScalarProduct` on doubles. -/
def ScalarProduct (a b : Vector3D Double) : Double :=
  a.x * b.x + a.y * b.y + a.z * b.z

/-- The free function `Subtract` on doubles. -/
def Subtract (a b : Vector3D Double) : Vector3D Double :=
  { x := a.x - b.x, y := a.y - b.y, z := a.z - b.z }

/-- The method `Segment3D::Length` on doubles. -/
def Segment3D.Length (s : Segment3D Double) : Double :=
  let v := Subtract s.«end» s.start
  ScalarProduct v v

/-- The function `Intercept` on doubles: `none` is the null pointer. -/
def Intercept (seg1 seg2 : Segment3D Double) : Option (Vector3D Double) :=
  let v_s1 := Subtract seg1.«end» seg1.start
  let v_s2 := Subtract seg2.«end» seg2.start
  let v_s1s2 := Subtract seg2.start seg1.start
  let S1crossS2 := CrossProduct v_s1 v_s2
  let crossV_length := Vector3D.Length S1crossS2
  if Double.lt crossV_length eps then
    none
  else
    let t1 := ScalarProduct (CrossProduct v_s1s2 v_s2) S1crossS2 / crossV_length
    let t2 := ScalarProduct (CrossProduct v_s1s2 v_s1) S1crossS2 / crossV_length
    if Double.ge t1 0 && Double.le t1 1 && Double.ge t2 0 && Double.le t2 1 then
      some { x := seg1.start.x + t1 * v_s1.x
             y := seg1.start.y + t1 * v_s1.y
             z := seg1.start.z + t1 * v_s1.z }
    else
      none

/-- The divisors of the divisions `Intercept` evaluates on doubles, in order of evaluation. -/
def InterceptDivisors (seg1 seg2 : Segment3D Double) : List Double :=
  let v_s1 := Subtract seg1.«end» seg1.start
  let v_s2 := Subtract seg2.«end» seg2.start
  let S1crossS2 := CrossProduct v_s1 v_s2
  let crossV_length := Vector3D.Length S1crossS2
  if Double.lt crossV_length eps then
    []
  else
    [crossV_length, crossV_length]

/-- The quantity `m` (`crossV_length`) as `Intercept` computes it on doubles. -/
def crossNormSq (seg1 seg2 : Segment3D Double) : Double :=
  Vector3D.Length (CrossProduct (Subtract seg1.«end» seg1.start) (Subtract seg2.«end» seg2.start))

/-- The parameter `t1` as `Intercept` computes it on doubles. -/
def t1 (seg1 seg2 : Segment3D Double) : Double :=
  ScalarProduct (CrossProduct (Subtract seg2.start seg1.start) (Subtract seg2.«end» seg2.start))
    (CrossProduct (Subtract seg1.«end» seg1.start) (Subtract seg2.«end» seg2.start))
    / crossNormSq seg1 seg2

/-- The parameter `t2` as `Intercept` computes it on doubles. -/
def t2 (seg1 seg2 : Segment3D Double) : Double :=
  ScalarProduct (CrossProduct (Subtract seg2.start seg1.start) (Subtract seg1.«end» seg1.start))
    (CrossProduct (Subtract seg1.«end» seg1.start) (Subtract seg2.«end» seg2.start))
    / crossNormSq seg1 seg2

/-- The point `seg.start + t * (seg.end - seg.start)` computed on doubles, one rounded operation
at a time, the way `Intercept` computes its result. -/
def pointAt (seg : Segment3D Double) (t : Double) : Vector3D Double :=
  { x := seg.start.x + t * (Subtract seg.«end» seg.start).x
    y := seg.start.y + t * (Subtract seg.«end» seg.start).y
    z := seg.start.z + t * (Subtract seg.«end» seg.start).z }

end Binary64

end Binary64Model

/-! ## Shared lemmas -/

section Lemmas

variable {K : Type} [LinearOrderedField K]

theorem eps_pos : (0 : K) < eps := by
  unfold eps; norm_num

/-- Unfolding of `Intercept` through the named quantities `m`, `t1`, `t2`. -/
theorem Intercept_unfold (seg1 seg2 : Segment3D K) :
    Intercept seg1 seg2 =
      if crossNormSq seg1 seg2 < eps then none
      else if t1 seg1 seg2 ≥ 0 ∧ t1 seg1 seg2 ≤ 1 ∧ t2 seg1 seg2 ≥ 0 ∧ t2 seg1 seg2 ≤ 1 then
        some (pointAt seg1 (t1 seg1 seg2))
      else none := by
  rfl

theorem crossNormSq_nonneg (seg1 seg2 : Segment3D K) : 0 ≤ crossNormSq seg1 seg2 := by
  unfold crossNormSq Vector3D.Length
  nlinarith [mul_self_nonneg (normal seg1 seg2).x, mul_self_nonneg (normal seg1 seg2).y,
    mul_self_nonneg (normal seg1 seg2).z]

theorem crossNormSq_swap (seg1 seg2 : Segment3D K) :
    crossNormSq seg2 seg1 = crossNormSq seg1 seg2 := by
  simp only [crossNormSq, normal, direction, CrossProduct, Subtract, Vector3D.Length,
    Vector3D.GetX, Vector3D.GetY, Vector3D.GetZ, Segment3D.GetStart, Segment3D.GetEnd]
  ring

theorem t1_swap (seg1 seg2 : Segment3D K) : t1 seg2 seg1 = t2 seg1 seg2 := by
  unfold t1 t2
  rw [crossNormSq_swap seg1 seg2]
  congr 1
  simp only [normal, startOffset, direction, CrossProduct, ScalarProduct, Subtract,
    Vector3D.GetX, Vector3D.GetY, Vector3D.GetZ, Segment3D.GetStart, Segment3D.GetEnd]
  ring

theorem t2_swap (seg1 seg2 : Segment3D K) : t2 seg2 seg1 = t1 seg1 seg2 := by
  unfold t1 t2
  rw [crossNormSq_swap seg1 seg2]
  congr 1
  simp only [normal, startOffset, direction, CrossProduct, ScalarProduct, Subtract,
    Vector3D.GetX, Vector3D.GetY, Vector3D.GetZ, Segment3D.GetStart, Segment3D.GetEnd]
  ring

/-- Where the tolerance test passes, `m` is positive. -/
theorem crossNormSq_pos_of_eps_le {seg1 seg2 : Segment3D K} (h : eps ≤ crossNormSq seg1 seg2) :
    0 < crossNormSq seg1 seg2 :=
  lt_of_lt_of_le eps_pos h

/-- When a point of line 1 at parameter `s` is the point of line 2 at parameter `u`, the numerator
of `t1` is `s * m`. -/
theorem t1_numerator_of_common (seg1 seg2 : Segment3D K) (s u : K)
    (h : pointAt seg1 s = pointAt seg2 u) :
    ScalarProduct (CrossProduct (startOffset seg1 seg2) (direction seg2)) (normal seg1 seg2)
      = s * crossNormSq seg1 seg2 := by
  obtain ⟨⟨a1, a2, a3⟩, ⟨b1, b2, b3⟩⟩ := seg1
  obtain ⟨⟨c1, c2, c3⟩, ⟨e1, e2, e3⟩⟩ := seg2
  simp only [pointAt, Vector3D.mk.injEq] at h
  obtain ⟨hx, hy, hz⟩ := h
  simp only [crossNormSq, normal, startOffset, direction, CrossProduct, ScalarProduct, Subtract,
    Vector3D.Length, Vector3D.GetX, Vector3D.GetY, Vector3D.GetZ, Segment3D.GetStart,
    Segment3D.GetEnd]
  linear_combination
    (-((e2 - c2) * ((b1 - a1) * (e2 - c2) - (b2 - a2) * (e1 - c1))
        - (e3 - c3) * ((b3 - a3) * (e1 - c1) - (b1 - a1) * (e3 - c3)))) * hx
    + (-((e3 - c3) * ((b2 - a2) * (e3 - c3) - (b3 - a3) * (e2 - c2))
        - (e1 - c1) * ((b1 - a1) * (e2 - c2) - (b2 - a2) * (e1 - c1)))) * hy
    + (-((e1 - c1) * ((b3 - a3) * (e1 - c1) - (b1 - a1) * (e3 - c3))
        - (e2 - c2) * ((b2 - a2) * (e3 - c3) - (b3 - a3) * (e2 - c2)))) * hz

/-- When a point of line 1 at parameter `s` is the point of line 2 at parameter `u`, the numerator
of `t2` is `u * m`. -/
theorem t2_numerator_of_common (seg1 seg2 : Segment3D K) (s u : K)
    (h : pointAt seg1 s = pointAt seg2 u) :
    ScalarProduct (CrossProduct (startOffset seg1 seg2) (direction seg1)) (normal seg1 seg2)
      = u * crossNormSq seg1 seg2 := by
  obtain ⟨⟨a1, a2, a3⟩, ⟨b1, b2, b3⟩⟩ := seg1
  obtain ⟨⟨c1, c2, c3⟩, ⟨e1, e2, e3⟩⟩ := seg2
  simp only [pointAt, Vector3D.mk.injEq] at h
  obtain ⟨hx, hy, hz⟩ := h
  simp only [crossNormSq, normal, startOffset, direction, CrossProduct, ScalarProduct, Subtract,
    Vector3D.Length, Vector3D.GetX, Vector3D.GetY, Vector3D.GetZ, Segment3D.GetStart,
    Segment3D.GetEnd]
  linear_combination
    (-((b2 - a2) * ((b1 - a1) * (e2 - c2) - (b2 - a2) * (e1 - c1))
        - (b3 - a3) * ((b3 - a3) * (e1 - c1) - (b1 - a1) * (e3 - c3)))) * hx
    + (-((b3 - a3) * ((b2 - a2) * (e3 - c3) - (b3 - a3) * (e2 - c2))
        - (b1 - a1) * ((b1 - a1) * (e2 - c2) - (b2 - a2) * (e1 - c1)))) * hy
    + (-((b1 - a1) * ((b3 - a3) * (e1 - c1) - (b1 - a1) * (e3 - c3))
        - (b2 - a2) * ((b2 - a2) * (e3 - c3) - (b3 - a3) * (e2 - c2)))) * hz

theorem t1_of_common {seg1 seg2 : Segment3D K} {s u : K}
    (hm : eps ≤ crossNormSq seg1 seg2) (h : pointAt seg1 s = pointAt seg2 u) :
    t1 seg1 seg2 = s := by
  unfold t1
  rw [t1_numerator_of_common seg1 seg2 s u h]
  exact mul_div_cancel_right₀ s (ne_of_gt (crossNormSq_pos_of_eps_le hm))

theorem t2_of_common {seg1 seg2 : Segment3D K} {s u : K}
    (hm : eps ≤ crossNormSq seg1 seg2) (h : pointAt seg1 s = pointAt seg2 u) :
    t2 seg1 seg2 = u := by
  unfold t2
  rw [t2_numerator_of_common seg1 seg2 s u h]
  exact mul_div_cancel_right₀ u (ne_of_gt (crossNormSq_pos_of_eps_le hm))

/-- A common point of the two segments, away from the parallel case, is what `Intercept` returns. -/
theorem Intercept_of_common {seg1 seg2 : Segment3D K} {s u : K}
    (hm : eps ≤ crossNormSq seg1 seg2) (hs0 : 0 ≤ s) (hs1 : s ≤ 1) (hu0 : 0 ≤ u) (hu1 : u ≤ 1)
    (h : pointAt seg1 s = pointAt seg2 u) :
    Intercept seg1 seg2 = some (pointAt seg1 s) := by
  rw [Intercept_unfold, if_neg (not_lt.mpr hm), t1_of_common hm h, t2_of_common hm h,
    if_pos ⟨hs0, hs1, hu0, hu1⟩]

/-- What a returned point says about `m`, `t1` and `t2`. -/
theorem Intercept_eq_some_iff (seg1 seg2 : Segment3D K) (P : Vector3D K) :
    Intercept seg1 seg2 = some P ↔
      eps ≤ crossNormSq seg1 seg2 ∧ 0 ≤ t1 seg1 seg2 ∧ t1 seg1 seg2 ≤ 1 ∧
        0 ≤ t2 seg1 seg2 ∧ t2 seg1 seg2 ≤ 1 ∧ P = pointAt seg1 (t1 seg1 seg2) := by
  rw [Intercept_unfold]
  constructor
  · intro h
    by_cases hm : crossNormSq seg1 seg2 < eps
    · rw [if_pos hm] at h
      exact absurd h (by simp)
    · rw [if_neg hm] at h
      by_cases hb : t1 seg1 seg2 ≥ 0 ∧ t1 seg1 seg2 ≤ 1 ∧ t2 seg1 seg2 ≥ 0 ∧ t2 seg1 seg2 ≤ 1
      · rw [if_pos hb] at h
        exact ⟨not_lt.mp hm, hb.1, hb.2.1, hb.2.2.1, hb.2.2.2, (Option.some.inj h).symm⟩
      · rw [if_neg hb] at h
        exact absurd h (by simp)
  · rintro ⟨hm, h10, h11, h20, h21, hP⟩
    rw [if_neg (not_lt.mpr hm), if_pos ⟨h10, h11, h20, h21⟩, hP]

/-- For coplanar lines that are not parallel, the point of line 1 at `t1` is the point of line 2
at `t2`. -/
theorem pointAt_t1_eq_pointAt_t2 {seg1 seg2 : Segment3D K}
    (hm : crossNormSq seg1 seg2 ≠ 0) (hcop : Coplanar seg1 seg2) :
    pointAt seg1 (t1 seg1 seg2) = pointAt seg2 (t2 seg1 seg2) := by
  obtain ⟨⟨a1, a2, a3⟩, ⟨b1, b2, b3⟩⟩ := seg1
  obtain ⟨⟨c1, c2, c3⟩, ⟨e1, e2, e3⟩⟩ := seg2
  simp only [Coplanar, crossNormSq, normal, startOffset, direction, CrossProduct, ScalarProduct,
    Subtract, Vector3D.Length, Vector3D.GetX, Vector3D.GetY, Vector3D.GetZ, Segment3D.GetStart,
    Segment3D.GetEnd] at hm hcop
  simp only [pointAt, t1, t2, crossNormSq, normal, startOffset, direction, CrossProduct,
    ScalarProduct, Subtract, Vector3D.Length, Vector3D.GetX, Vector3D.GetY, Vector3D.GetZ,
    Segment3D.GetStart, Segment3D.GetEnd, Vector3D.mk.injEq]
  refine ⟨?_, ?_, ?_⟩
  · field_simp
    linear_combination (-((b2 - a2) * (e3 - c3) - (b3 - a3) * (e2 - c2))) * hcop
  · field_simp
    linear_combination (-((b3 - a3) * (e1 - c1) - (b1 - a1) * (e3 - c3))) * hcop
  · field_simp
    linear_combination (-((b1 - a1) * (e2 - c2) - (b2 - a2) * (e1 - c1))) * hcop

/-- A common point of the two supporting lines makes them coplanar. -/
theorem coplanar_of_common {seg1 seg2 : Segment3D K} {s u : K}
    (h : pointAt seg1 s = pointAt seg2 u) : Coplanar seg1 seg2 := by
  obtain ⟨⟨a1, a2, a3⟩, ⟨b1, b2, b3⟩⟩ := seg1
  obtain ⟨⟨c1, c2, c3⟩, ⟨e1, e2, e3⟩⟩ := seg2
  simp only [pointAt, Vector3D.mk.injEq] at h
  obtain ⟨hx, hy, hz⟩ := h
  simp only [Coplanar, normal, startOffset, direction, CrossProduct, ScalarProduct, Subtract,
    Vector3D.GetX, Vector3D.GetY, Vector3D.GetZ, Segment3D.GetStart, Segment3D.GetEnd]
  linear_combination
    (-((b2 - a2) * (e3 - c3) - (b3 - a3) * (e2 - c2))) * hx
    + (-((b3 - a3) * (e1 - c1) - (b1 - a1) * (e3 - c3))) * hy
    + (-((b1 - a1) * (e2 - c2) - (b2 - a2) * (e1 - c1))) * hz

/-- The first-segment point of `Intercept seg2 seg1` is the second-segment point of
`Intercept seg1 seg2`. -/
theorem Intercept_swap_eq_some_iff (seg1 seg2 : Segment3D K) (Q : Vector3D K) :
    Intercept seg2 seg1 = some Q ↔
      eps ≤ crossNormSq seg1 seg2 ∧ 0 ≤ t1 seg1 seg2 ∧ t1 seg1 seg2 ≤ 1 ∧
        0 ≤ t2 seg1 seg2 ∧ t2 seg1 seg2 ≤ 1 ∧ Q = pointAt seg2 (t2 seg1 seg2) := by
  rw [Intercept_eq_some_iff, crossNormSq_swap seg1 seg2, t1_swap seg1 seg2, t2_swap seg1 seg2]
  tauto

theorem pointAt_zero (seg : Segment3D K) : pointAt seg 0 = seg.start := by
  obtain ⟨⟨a1, a2, a3⟩, ⟨b1, b2, b3⟩⟩ := seg
  simp [pointAt]

theorem pointAt_one (seg : Segment3D K) : pointAt seg 1 = seg.«end» := by
  obtain ⟨⟨a1, a2, a3⟩, ⟨b1, b2, b3⟩⟩ := seg
  simp [pointAt]

/-- An endpoint of a segment is its point at parameter `0` or `1`. -/
theorem IsEndpoint.exists_param {seg : Segment3D K} {E : Vector3D K} (h : IsEndpoint seg E) :
    ∃ s : K, 0 ≤ s ∧ s ≤ 1 ∧ pointAt seg s = E := by
  rcases h with h | h
  · exact ⟨0, le_refl 0, zero_le_one, by rw [pointAt_zero, h]⟩
  · exact ⟨1, zero_le_one, le_refl 1, by rw [pointAt_one, h]⟩

/-- A common endpoint of two segments, away from the parallel case, is what `Intercept` returns. -/
theorem Intercept_of_common_endpoint {seg1 seg2 : Segment3D K} {E : Vector3D K}
    (hm : eps ≤ crossNormSq seg1 seg2) (h1 : IsEndpoint seg1 E) (h2 : IsEndpoint seg2 E) :
    Intercept seg1 seg2 = some E := by
  obtain ⟨s, hs0, hs1, hs⟩ := h1.exists_param
  obtain ⟨u, hu0, hu1, hu⟩ := h2.exists_param
  rw [← hs]
  exact Intercept_of_common hm hs0 hs1 hu0 hu1 (hs.trans hu.symm)

/-- Where the tolerance test fails, `Intercept` returns the null pointer. -/
theorem Intercept_eq_none_of_lt {seg1 seg2 : Segment3D K} (h : crossNormSq seg1 seg2 < eps) :
    Intercept seg1 seg2 = none := by
  rw [Intercept_unfold, if_pos h]

/-- The cross product of a vector and a multiple of it vanishes. -/
theorem CrossProduct_scale_right (k : K) (v : Vector3D K) :
    CrossProduct v (scale k v) = zeroVector := by
  simp only [CrossProduct, scale, zeroVector, Vector3D.GetX, Vector3D.GetY, Vector3D.GetZ,
    Vector3D.mk.injEq]
  refine ⟨?_, ?_, ?_⟩ <;> ring

theorem CrossProduct_zero_left (v : Vector3D K) : CrossProduct zeroVector v = zeroVector := by
  simp [CrossProduct, zeroVector, Vector3D.GetX, Vector3D.GetY, Vector3D.GetZ]

theorem Length_zeroVector : (zeroVector : Vector3D K).Length = 0 := by
  simp [Vector3D.Length, zeroVector]

theorem scale_zeroVector (k : K) : scale k (zeroVector : Vector3D K) = zeroVector := by
  simp [scale, zeroVector]

theorem scale_one (v : Vector3D K) : scale 1 v = v := by
  simp [scale]

/-- Linearly dependent directions have `m = 0`. -/
theorem crossNormSq_eq_zero_of_dependent {seg1 seg2 : Segment3D K}
    (h : (∃ k : K, direction seg2 = scale k (direction seg1)) ∨ direction seg1 = zeroVector) :
    crossNormSq seg1 seg2 = 0 := by
  unfold crossNormSq normal
  rcases h with ⟨k, hk⟩ | h0
  · rw [hk, CrossProduct_scale_right, Length_zeroVector]
  · rw [h0, CrossProduct_zero_left, Length_zeroVector]

/-- A sum of three squares vanishes only when each term does. -/
theorem Length_eq_zero_iff (v : Vector3D K) : v.Length = 0 ↔ v = zeroVector := by
  obtain ⟨x, y, z⟩ := v
  simp only [Vector3D.Length, zeroVector, Vector3D.mk.injEq]
  constructor
  · intro h
    have hx : x * x = 0 := by nlinarith [mul_self_nonneg x, mul_self_nonneg y, mul_self_nonneg z]
    have hy : y * y = 0 := by nlinarith [mul_self_nonneg x, mul_self_nonneg y, mul_self_nonneg z]
    have hz : z * z = 0 := by nlinarith [mul_self_nonneg x, mul_self_nonneg y, mul_self_nonneg z]
    exact ⟨mul_self_eq_zero.mp hx, mul_self_eq_zero.mp hy, mul_self_eq_zero.mp hz⟩
  · rintro ⟨rfl, rfl, rfl⟩
    ring

theorem Length_nonneg (v : Vector3D K) : 0 ≤ v.Length := by
  unfold Vector3D.Length
  nlinarith [mul_self_nonneg v.x, mul_self_nonneg v.y, mul_self_nonneg v.z]

theorem Subtract_eq_zero_iff (a b : Vector3D K) : Subtract a b = zeroVector ↔ a = b := by
  obtain ⟨a1, a2, a3⟩ := a
  obtain ⟨b1, b2, b3⟩ := b
  simp only [Subtract, zeroVector, Vector3D.GetX, Vector3D.GetY, Vector3D.GetZ,
    Vector3D.mk.injEq, sub_eq_zero]

/-- A vanishing cross product makes the second vector a multiple of the first, unless the first
is zero. -/
theorem dependent_of_CrossProduct_eq_zero {p q : Vector3D K}
    (h : CrossProduct p q = zeroVector) : (∃ k : K, q = scale k p) ∨ p = zeroVector := by
  obtain ⟨p1, p2, p3⟩ := p
  obtain ⟨q1, q2, q3⟩ := q
  simp only [CrossProduct, zeroVector, Vector3D.GetX, Vector3D.GetY, Vector3D.GetZ,
    Vector3D.mk.injEq] at h
  obtain ⟨h1, h2, h3⟩ := h
  simp only [scale, zeroVector, Vector3D.mk.injEq]
  by_cases hp1 : p1 = 0
  · by_cases hp2 : p2 = 0
    · by_cases hp3 : p3 = 0
      · exact Or.inr ⟨hp1, hp2, hp3⟩
      · refine Or.inl ⟨q3 / p3, ?_, ?_, ?_⟩
        · field_simp
          linear_combination h2
        · field_simp
          linear_combination (-1 : K) * h1
        · field_simp
    · refine Or.inl ⟨q2 / p2, ?_, ?_, ?_⟩
      · field_simp
        linear_combination (-1 : K) * h3
      · field_simp
      · field_simp
        linear_combination h1
  · refine Or.inl ⟨q1 / p1, ?_, ?_, ?_⟩
    · field_simp
    · field_simp
      linear_combination h3
    · field_simp
      linear_combination (-1 : K) * h2

/-- The squared cross product `m` is zero exactly for linearly dependent directions. -/
theorem crossNormSq_eq_zero_iff (seg1 seg2 : Segment3D K) :
    crossNormSq seg1 seg2 = 0 ↔
      ((∃ k : K, direction seg2 = scale k (direction seg1)) ∨ direction seg1 = zeroVector) := by
  constructor
  · intro h
    unfold crossNormSq normal at h
    exact dependent_of_CrossProduct_eq_zero ((Length_eq_zero_iff _).mp h)
  · exact crossNormSq_eq_zero_of_dependent

/-! ### Reversing a segment -/

theorem crossNormSq_reversed_left (seg1 seg2 : Segment3D K) :
    crossNormSq seg1.reversed seg2 = crossNormSq seg1 seg2 := by
  simp only [crossNormSq, normal, direction, Segment3D.reversed, CrossProduct, Subtract,
    Vector3D.Length, Vector3D.GetX, Vector3D.GetY, Vector3D.GetZ, Segment3D.GetStart,
    Segment3D.GetEnd]
  ring

theorem crossNormSq_reversed_right (seg1 seg2 : Segment3D K) :
    crossNormSq seg1 seg2.reversed = crossNormSq seg1 seg2 := by
  simp only [crossNormSq, normal, direction, Segment3D.reversed, CrossProduct, Subtract,
    Vector3D.Length, Vector3D.GetX, Vector3D.GetY, Vector3D.GetZ, Segment3D.GetStart,
    Segment3D.GetEnd]
  ring

/-- Reversing the first segment maps `t1` to `1 - t1`. -/
theorem t1_reversed_left {seg1 seg2 : Segment3D K} (hm : crossNormSq seg1 seg2 ≠ 0) :
    t1 seg1.reversed seg2 = 1 - t1 seg1 seg2 := by
  have key : ScalarProduct (CrossProduct (startOffset seg1.reversed seg2) (direction seg2))
      (normal seg1.reversed seg2)
      = crossNormSq seg1 seg2
        - ScalarProduct (CrossProduct (startOffset seg1 seg2) (direction seg2))
            (normal seg1 seg2) := by
    simp only [crossNormSq, normal, startOffset, direction, Segment3D.reversed, CrossProduct,
      ScalarProduct, Subtract, Vector3D.Length, Vector3D.GetX, Vector3D.GetY, Vector3D.GetZ,
      Segment3D.GetStart, Segment3D.GetEnd]
    ring
  unfold t1
  rw [crossNormSq_reversed_left, key, sub_div, div_self hm]

/-- Reversing the first segment leaves `t2` unchanged. -/
theorem t2_reversed_left (seg1 seg2 : Segment3D K) :
    t2 seg1.reversed seg2 = t2 seg1 seg2 := by
  unfold t2
  rw [crossNormSq_reversed_left]
  congr 1
  simp only [normal, startOffset, direction, Segment3D.reversed, CrossProduct, ScalarProduct,
    Subtract, Vector3D.GetX, Vector3D.GetY, Vector3D.GetZ, Segment3D.GetStart, Segment3D.GetEnd]
  ring

/-- Reversing the second segment leaves `t1` unchanged. -/
theorem t1_reversed_right (seg1 seg2 : Segment3D K) :
    t1 seg1 seg2.reversed = t1 seg1 seg2 := by
  unfold t1
  rw [crossNormSq_reversed_right]
  congr 1
  simp only [normal, startOffset, direction, Segment3D.reversed, CrossProduct, ScalarProduct,
    Subtract, Vector3D.GetX, Vector3D.GetY, Vector3D.GetZ, Segment3D.GetStart, Segment3D.GetEnd]
  ring

/-- Reversing the second segment maps `t2` to `1 - t2`. -/
theorem t2_reversed_right {seg1 seg2 : Segment3D K} (hm : crossNormSq seg1 seg2 ≠ 0) :
    t2 seg1 seg2.reversed = 1 - t2 seg1 seg2 := by
  have key : ScalarProduct (CrossProduct (startOffset seg1 seg2.reversed) (direction seg1))
      (normal seg1 seg2.reversed)
      = crossNormSq seg1 seg2
        - ScalarProduct (CrossProduct (startOffset seg1 seg2) (direction seg1))
            (normal seg1 seg2) := by
    simp only [crossNormSq, normal, startOffset, direction, Segment3D.reversed, CrossProduct,
      ScalarProduct, Subtract, Vector3D.Length, Vector3D.GetX, Vector3D.GetY, Vector3D.GetZ,
      Segment3D.GetStart, Segment3D.GetEnd]
    ring
  unfold t2
  rw [crossNormSq_reversed_right, key, sub_div, div_self hm]

theorem pointAt_reversed (seg : Segment3D K) (t : K) :
    pointAt seg.reversed (1 - t) = pointAt seg t := by
  simp only [pointAt, Segment3D.reversed, Vector3D.mk.injEq]
  refine ⟨?_, ?_, ?_⟩ <;> ring

theorem unit_interval_flip (t : K) : (1 - t ≥ 0 ∧ 1 - t ≤ 1) ↔ (t ≥ 0 ∧ t ≤ 1) := by
  constructor
  · rintro ⟨h0, h1⟩
    exact ⟨by linarith, by linarith⟩
  · rintro ⟨h0, h1⟩
    exact ⟨by linarith, by linarith⟩

/-- The result of `Intercept` does not change when the first segment is reversed. -/
theorem Intercept_reversed_left (seg1 seg2 : Segment3D K) :
    Intercept seg1.reversed seg2 = Intercept seg1 seg2 := by
  by_cases hm : crossNormSq seg1 seg2 < eps
  · rw [Intercept_eq_none_of_lt hm,
      Intercept_eq_none_of_lt (by rw [crossNormSq_reversed_left]; exact hm)]
  · have hne : crossNormSq seg1 seg2 ≠ 0 := ne_of_gt (crossNormSq_pos_of_eps_le (not_lt.mp hm))
    rw [Intercept_unfold seg1.reversed seg2, Intercept_unfold seg1 seg2,
      crossNormSq_reversed_left, if_neg hm, if_neg hm, t1_reversed_left hne, t2_reversed_left,
      pointAt_reversed]
    by_cases hb : t1 seg1 seg2 ≥ 0 ∧ t1 seg1 seg2 ≤ 1 ∧ t2 seg1 seg2 ≥ 0 ∧ t2 seg1 seg2 ≤ 1
    · have hb' : 1 - t1 seg1 seg2 ≥ 0 ∧ 1 - t1 seg1 seg2 ≤ 1 ∧ t2 seg1 seg2 ≥ 0 ∧
          t2 seg1 seg2 ≤ 1 :=
        ⟨((unit_interval_flip _).mpr ⟨hb.1, hb.2.1⟩).1,
          ((unit_interval_flip _).mpr ⟨hb.1, hb.2.1⟩).2, hb.2.2⟩
      rw [if_pos hb, if_pos hb']
    · have hb' : ¬ (1 - t1 seg1 seg2 ≥ 0 ∧ 1 - t1 seg1 seg2 ≤ 1 ∧ t2 seg1 seg2 ≥ 0 ∧
          t2 seg1 seg2 ≤ 1) := fun h =>
        hb ⟨((unit_interval_flip _).mp ⟨h.1, h.2.1⟩).1,
          ((unit_interval_flip _).mp ⟨h.1, h.2.1⟩).2, h.2.2⟩
      rw [if_neg hb, if_neg hb']

/-- The result of `Intercept` does not change when the second segment is reversed. -/
theorem Intercept_reversed_right (seg1 seg2 : Segment3D K) :
    Intercept seg1 seg2.reversed = Intercept seg1 seg2 := by
  by_cases hm : crossNormSq seg1 seg2 < eps
  · rw [Intercept_eq_none_of_lt hm,
      Intercept_eq_none_of_lt (by rw [crossNormSq_reversed_right]; exact hm)]
  · have hne : crossNormSq seg1 seg2 ≠ 0 := ne_of_gt (crossNormSq_pos_of_eps_le (not_lt.mp hm))
    rw [Intercept_unfold seg1 seg2.reversed, Intercept_unfold seg1 seg2,
      crossNormSq_reversed_right, if_neg hm, if_neg hm, t1_reversed_right,
      t2_reversed_right hne]
    by_cases hb : t1 seg1 seg2 ≥ 0 ∧ t1 seg1 seg2 ≤ 1 ∧ t2 seg1 seg2 ≥ 0 ∧ t2 seg1 seg2 ≤ 1
    · have hb' : t1 seg1 seg2 ≥ 0 ∧ t1 seg1 seg2 ≤ 1 ∧ 1 - t2 seg1 seg2 ≥ 0 ∧
          1 - t2 seg1 seg2 ≤ 1 :=
        ⟨hb.1, hb.2.1, (unit_interval_flip _).mpr hb.2.2⟩
      rw [if_pos hb, if_pos hb']
    · have hb' : ¬ (t1 seg1 seg2 ≥ 0 ∧ t1 seg1 seg2 ≤ 1 ∧ 1 - t2 seg1 seg2 ≥ 0 ∧
          1 - t2 seg1 seg2 ≤ 1) := fun h =>
        hb ⟨h.1, h.2.1, (unit_interval_flip _).mp h.2.2⟩
      rw [if_neg hb, if_neg hb']

/-! ### The two points picked on the supporting lines -/

/-- The vector from the point of line 2 at `t2` to the point of line 1 at `t1` is a multiple of
the common normal `n`. -/
theorem Subtract_pointAt_t1_t2 {seg1 seg2 : Segment3D K} (hm : crossNormSq seg1 seg2 ≠ 0) :
    Subtract (pointAt seg1 (t1 seg1 seg2)) (pointAt seg2 (t2 seg1 seg2))
      = scale (-(ScalarProduct (startOffset seg1 seg2) (normal seg1 seg2))
          / crossNormSq seg1 seg2) (normal seg1 seg2) := by
  obtain ⟨⟨a1, a2, a3⟩, ⟨b1, b2, b3⟩⟩ := seg1
  obtain ⟨⟨c1, c2, c3⟩, ⟨e1, e2, e3⟩⟩ := seg2
  simp only [crossNormSq, normal, direction, CrossProduct, Subtract, Vector3D.Length,
    Vector3D.GetX, Vector3D.GetY, Vector3D.GetZ, Segment3D.GetStart, Segment3D.GetEnd] at hm
  simp only [pointAt, t1, t2, scale, crossNormSq, normal, startOffset, direction, CrossProduct,
    ScalarProduct, Subtract, Vector3D.Length, Vector3D.GetX, Vector3D.GetY, Vector3D.GetZ,
    Segment3D.GetStart, Segment3D.GetEnd, Vector3D.mk.injEq]
  refine ⟨?_, ?_, ?_⟩
  · field_simp
    ring
  · field_simp
    ring
  · field_simp
    ring

/-- Every multiple of the normal `n` is orthogonal to both directions. -/
theorem ScalarProduct_scale_normal (seg1 seg2 : Segment3D K) (c : K) :
    ScalarProduct (scale c (normal seg1 seg2)) (direction seg1) = 0 ∧
    ScalarProduct (scale c (normal seg1 seg2)) (direction seg2) = 0 := by
  constructor <;>
    simp only [scale, normal, direction, CrossProduct, ScalarProduct, Subtract, Vector3D.GetX,
      Vector3D.GetY, Vector3D.GetZ, Segment3D.GetStart, Segment3D.GetEnd] <;>
    ring

/-- Two points, one on each line, whose difference is orthogonal to both directions are at the
least squared distance among all such pairs. -/
theorem Length_le_of_orthogonal (seg1 seg2 : Segment3D K) (τ1 τ2 s u : K)
    (h1 : ScalarProduct (Subtract (pointAt seg1 τ1) (pointAt seg2 τ2)) (direction seg1) = 0)
    (h2 : ScalarProduct (Subtract (pointAt seg1 τ1) (pointAt seg2 τ2)) (direction seg2) = 0) :
    (Subtract (pointAt seg1 τ1) (pointAt seg2 τ2)).Length
      ≤ (Subtract (pointAt seg1 s) (pointAt seg2 u)).Length := by
  obtain ⟨⟨a1, a2, a3⟩, ⟨b1, b2, b3⟩⟩ := seg1
  obtain ⟨⟨c1, c2, c3⟩, ⟨e1, e2, e3⟩⟩ := seg2
  simp only [pointAt, direction, ScalarProduct, Subtract, Vector3D.GetX, Vector3D.GetY,
    Vector3D.GetZ, Segment3D.GetStart, Segment3D.GetEnd] at h1 h2
  simp only [pointAt, Subtract, Vector3D.Length, Vector3D.GetX, Vector3D.GetY, Vector3D.GetZ]
  have hsplit :
      (a1 + s * (b1 - a1) - (c1 + u * (e1 - c1))) * (a1 + s * (b1 - a1) - (c1 + u * (e1 - c1)))
        + (a2 + s * (b2 - a2) - (c2 + u * (e2 - c2)))
          * (a2 + s * (b2 - a2) - (c2 + u * (e2 - c2)))
        + (a3 + s * (b3 - a3) - (c3 + u * (e3 - c3)))
          * (a3 + s * (b3 - a3) - (c3 + u * (e3 - c3)))
      = (a1 + τ1 * (b1 - a1) - (c1 + τ2 * (e1 - c1)))
          * (a1 + τ1 * (b1 - a1) - (c1 + τ2 * (e1 - c1)))
        + (a2 + τ1 * (b2 - a2) - (c2 + τ2 * (e2 - c2)))
          * (a2 + τ1 * (b2 - a2) - (c2 + τ2 * (e2 - c2)))
        + (a3 + τ1 * (b3 - a3) - (c3 + τ2 * (e3 - c3)))
          * (a3 + τ1 * (b3 - a3) - (c3 + τ2 * (e3 - c3)))
        + (((s - τ1) * (b1 - a1) - (u - τ2) * (e1 - c1))
            * ((s - τ1) * (b1 - a1) - (u - τ2) * (e1 - c1))
          + ((s - τ1) * (b2 - a2) - (u - τ2) * (e2 - c2))
            * ((s - τ1) * (b2 - a2) - (u - τ2) * (e2 - c2))
          + ((s - τ1) * (b3 - a3) - (u - τ2) * (e3 - c3))
            * ((s - τ1) * (b3 - a3) - (u - τ2) * (e3 - c3))) := by
    linear_combination (2 * (s - τ1)) * h1 - (2 * (u - τ2)) * h2
  rw [hsplit]
  exact le_add_of_nonneg_right
    (add_nonneg (add_nonneg (mul_self_nonneg _) (mul_self_nonneg _)) (mul_self_nonneg _))

/-! ### Translating both segments -/

theorem direction_translate (v : Vector3D K) (seg : Segment3D K) :
    direction (translate v seg) = direction seg := by
  simp only [direction, translate, translatePoint, Subtract, Vector3D.GetX, Vector3D.GetY,
    Vector3D.GetZ, Segment3D.GetStart, Segment3D.GetEnd, Vector3D.mk.injEq]
  refine ⟨?_, ?_, ?_⟩ <;> ring

theorem startOffset_translate (v : Vector3D K) (seg1 seg2 : Segment3D K) :
    startOffset (translate v seg1) (translate v seg2) = startOffset seg1 seg2 := by
  simp only [startOffset, translate, translatePoint, Subtract, Vector3D.GetX, Vector3D.GetY,
    Vector3D.GetZ, Segment3D.GetStart, Segment3D.GetEnd, Vector3D.mk.injEq]
  refine ⟨?_, ?_, ?_⟩ <;> ring

theorem normal_translate (v : Vector3D K) (seg1 seg2 : Segment3D K) :
    normal (translate v seg1) (translate v seg2) = normal seg1 seg2 := by
  unfold normal
  rw [direction_translate, direction_translate]

theorem crossNormSq_translate (v : Vector3D K) (seg1 seg2 : Segment3D K) :
    crossNormSq (translate v seg1) (translate v seg2) = crossNormSq seg1 seg2 := by
  unfold crossNormSq
  rw [normal_translate]

theorem t1_translate (v : Vector3D K) (seg1 seg2 : Segment3D K) :
    t1 (translate v seg1) (translate v seg2) = t1 seg1 seg2 := by
  unfold t1
  rw [startOffset_translate, direction_translate, normal_translate, crossNormSq_translate]

theorem t2_translate (v : Vector3D K) (seg1 seg2 : Segment3D K) :
    t2 (translate v seg1) (translate v seg2) = t2 seg1 seg2 := by
  unfold t2
  rw [startOffset_translate, direction_translate, normal_translate, crossNormSq_translate]

theorem pointAt_translate (v : Vector3D K) (seg : Segment3D K) (t : K) :
    pointAt (translate v seg) t = translatePoint v (pointAt seg t) := by
  simp only [pointAt, translate, translatePoint, Vector3D.mk.injEq]
  refine ⟨?_, ?_, ?_⟩ <;> ring

/-! ### Rounding and the guard on doubles -/

/-- With fuel at least `n`, `log2Fuel` brackets `n` between two consecutive powers of two. -/
theorem Double.log2Fuel_spec (fuel : Nat) :
    ∀ n : Nat, n ≤ fuel → 0 < n →
      2 ^ Double.log2Fuel fuel n ≤ n ∧ n < 2 ^ (Double.log2Fuel fuel n + 1) := by
  induction fuel with
  | zero =>
    intro n hn hpos
    omega
  | succ fuel ih =>
    intro n hn hpos
    unfold Double.log2Fuel
    by_cases h2 : n < 2
    · rw [if_pos h2]
      have h1 : n = 1 := by omega
      subst h1
      decide
    · rw [if_neg h2]
      have hhalf : n / 2 ≤ fuel := by omega
      have hhalfpos : 0 < n / 2 := by omega
      obtain ⟨hlo, hhi⟩ := ih (n / 2) hhalf hhalfpos
      rw [pow_succ] at hhi
      rw [pow_succ, pow_succ, pow_succ]
      constructor <;> omega

/-- The function `natLog2` is the floor of the binary logarithm. -/
theorem Double.natLog2_spec (n : Nat) (h : 0 < n) :
    2 ^ Double.natLog2 n ≤ n ∧ n < 2 ^ (Double.natLog2 n + 1) :=
  Double.log2Fuel_spec n n (le_refl n) h

/-- On doubles a zero is below the tolerance, whatever its sign bit. -/
theorem Binary64.isZero_eq_false_of_not_lt_eps {d : Double}
    (h : Double.lt d Binary64.eps = false) : d.isZero = false := by
  cases d with
  | fin q =>
    by_cases hq : q.num = 0
    · have hq0 : q = 0 := Rat.zero_of_num_zero hq
      subst hq0
      have hlt : Double.lt (Double.fin 0) Binary64.eps = true := by decide!
      rw [hlt] at h
      exact absurd h (by decide)
    · simp [Double.isZero, hq]
  | negZero =>
    have hlt : Double.lt Double.negZero Binary64.eps = true := by decide!
    rw [hlt] at h
    exact absurd h (by decide)
  | inf neg => rfl
  | nan => rfl

/-- On doubles every divisor `Intercept` evaluates is the computed `m`, is not below the
tolerance, and is not a zero. -/
theorem Binary64.InterceptDivisors_spec (seg1 seg2 : Segment3D Double) :
    ∀ d ∈ Binary64.InterceptDivisors seg1 seg2,
      d = Binary64.crossNormSq seg1 seg2 ∧ Double.lt d Binary64.eps = false ∧
        d.isZero = false := by
  intro d hd
  by_cases hm : Double.lt (Binary64.crossNormSq seg1 seg2) Binary64.eps = true
  · have hm' := hm
    unfold Binary64.crossNormSq at hm'
    simp only [Binary64.InterceptDivisors, if_pos hm', List.not_mem_nil] at hd
  · have hm' := hm
    unfold Binary64.crossNormSq at hm'
    simp only [Binary64.InterceptDivisors, if_neg hm', List.mem_cons, List.mem_singleton,
      or_self, List.not_mem_nil, or_false] at hd
    have hd' : d = Binary64.crossNormSq seg1 seg2 := hd
    have hlt : Double.lt d Binary64.eps = false := by
      rw [hd']
      exact Bool.eq_false_iff.mpr hm
    exact ⟨hd', hlt, Binary64.isZero_eq_false_of_not_lt_eps hlt⟩

end Lemmas

/-! ## The intersection solver: contract -/

section Contract

variable {K : Type} [LinearOrderedField K]

/-- C1. Completeness of `Intercept`: when `|cross(d1, d2)|^2 ≥ eps` and a point `P` lies on both
segments (`P = seg1.start + s * d1 = seg2.start + u * d2` with `s`, `u` in `[0, 1]`), `Intercept`
returns a point and that point is exactly `P`. -/
theorem Intercept_complete (seg1 seg2 : Segment3D K) (P : Vector3D K)
    (hm : crossNormSq seg1 seg2 ≥ eps) (h1 : OnSegment seg1 P) (h2 : OnSegment seg2 P) :
    Intercept seg1 seg2 = some P := by
  obtain ⟨s, hs0, hs1, hPs⟩ := h1
  obtain ⟨u, hu0, hu1, hPu⟩ := h2
  rw [hPs]
  exact Intercept_of_common hm hs0 hs1 hu0 hu1 (hPs.symm.trans hPu)

/-- Witness of C1: the segments `(0,0,0)→(2,0,0)` and `(1,-1,0)→(1,1,0)` cross at `(1,0,0)`. -/
theorem Intercept_complete_witness :
    crossNormSq (⟨⟨0, 0, 0⟩, ⟨2, 0, 0⟩⟩ : Segment3D ℚ) ⟨⟨1, -1, 0⟩, ⟨1, 1, 0⟩⟩ ≥ eps ∧
    OnSegment (⟨⟨0, 0, 0⟩, ⟨2, 0, 0⟩⟩ : Segment3D ℚ) ⟨1, 0, 0⟩ ∧
    OnSegment (⟨⟨1, -1, 0⟩, ⟨1, 1, 0⟩⟩ : Segment3D ℚ) ⟨1, 0, 0⟩ ∧
    Intercept (⟨⟨0, 0, 0⟩, ⟨2, 0, 0⟩⟩ : Segment3D ℚ) ⟨⟨1, -1, 0⟩, ⟨1, 1, 0⟩⟩ = some ⟨1, 0, 0⟩ := by
  have hm : crossNormSq (⟨⟨0, 0, 0⟩, ⟨2, 0, 0⟩⟩ : Segment3D ℚ) ⟨⟨1, -1, 0⟩, ⟨1, 1, 0⟩⟩ ≥ eps := by
    norm_num [crossNormSq, normal, direction, CrossProduct, Subtract, Vector3D.Length, eps,
      Vector3D.GetX, Vector3D.GetY, Vector3D.GetZ, Segment3D.GetStart, Segment3D.GetEnd]
  have h1 : OnSegment (⟨⟨0, 0, 0⟩, ⟨2, 0, 0⟩⟩ : Segment3D ℚ) ⟨1, 0, 0⟩ :=
    ⟨1 / 2, by norm_num, by norm_num, by norm_num [pointAt]⟩
  have h2 : OnSegment (⟨⟨1, -1, 0⟩, ⟨1, 1, 0⟩⟩ : Segment3D ℚ) ⟨1, 0, 0⟩ :=
    ⟨1 / 2, by norm_num, by norm_num, by norm_num [pointAt]⟩
  exact ⟨hm, h1, h2, Intercept_complete _ _ _ hm h1 h2⟩

/-- C2. Soundness of `Intercept` for coplanar segments: when the supporting lines are coplanar,
a returned point lies on both segments; equivalently, coplanar segments with no common point get
`none`.  For `(0,0,0)→(1,0,0)` and `(5,-1,0)→(5,1,0)` the lines cross at `(5,0,0)`, the segments
have no common point, `t1 = 5`, and the result is `none`. -/
theorem Intercept_sound_of_coplanar :
    (∀ (seg1 seg2 : Segment3D K) (P : Vector3D K), Coplanar seg1 seg2 →
        Intercept seg1 seg2 = some P → OnSegment seg1 P ∧ OnSegment seg2 P) ∧
    (∀ seg1 seg2 : Segment3D K, Coplanar seg1 seg2 →
        (¬ ∃ P, OnSegment seg1 P ∧ OnSegment seg2 P) → Intercept seg1 seg2 = none) ∧
    (Coplanar (⟨⟨0, 0, 0⟩, ⟨1, 0, 0⟩⟩ : Segment3D K) ⟨⟨5, -1, 0⟩, ⟨5, 1, 0⟩⟩ ∧
      (OnLine (⟨⟨0, 0, 0⟩, ⟨1, 0, 0⟩⟩ : Segment3D K) ⟨5, 0, 0⟩ ∧
        OnLine (⟨⟨5, -1, 0⟩, ⟨5, 1, 0⟩⟩ : Segment3D K) ⟨5, 0, 0⟩) ∧
      (¬ ∃ P, OnSegment (⟨⟨0, 0, 0⟩, ⟨1, 0, 0⟩⟩ : Segment3D K) P ∧
        OnSegment (⟨⟨5, -1, 0⟩, ⟨5, 1, 0⟩⟩ : Segment3D K) P) ∧
      t1 (⟨⟨0, 0, 0⟩, ⟨1, 0, 0⟩⟩ : Segment3D K) ⟨⟨5, -1, 0⟩, ⟨5, 1, 0⟩⟩ = 5 ∧
      Intercept (⟨⟨0, 0, 0⟩, ⟨1, 0, 0⟩⟩ : Segment3D K) ⟨⟨5, -1, 0⟩, ⟨5, 1, 0⟩⟩ = none) := by
  have sound : ∀ (seg1 seg2 : Segment3D K) (P : Vector3D K), Coplanar seg1 seg2 →
      Intercept seg1 seg2 = some P → OnSegment seg1 P ∧ OnSegment seg2 P := by
    intro seg1 seg2 P hcop h
    obtain ⟨hm, h10, h11, h20, h21, hP⟩ := (Intercept_eq_some_iff seg1 seg2 P).mp h
    refine ⟨⟨t1 seg1 seg2, h10, h11, hP⟩, ⟨t2 seg1 seg2, h20, h21, ?_⟩⟩
    rw [hP]
    exact pointAt_t1_eq_pointAt_t2 (ne_of_gt (crossNormSq_pos_of_eps_le hm)) hcop
  refine ⟨sound, ?_, ?_, ⟨⟨5, ?_⟩, ⟨1 / 2, ?_⟩⟩, ?_, ?_, ?_⟩
  · intro seg1 seg2 hcop hno
    cases h : Intercept seg1 seg2 with
    | none => rfl
    | some P => exact absurd ⟨P, sound seg1 seg2 P hcop h⟩ hno
  · norm_num [Coplanar, normal, startOffset, direction, CrossProduct, ScalarProduct, Subtract,
      Vector3D.GetX, Vector3D.GetY, Vector3D.GetZ, Segment3D.GetStart, Segment3D.GetEnd]
  · norm_num [pointAt]
  · norm_num [pointAt]
  · rintro ⟨P, ⟨s, _, hs1, hPs⟩, ⟨u, _, _, hPu⟩⟩
    have hx := congrArg Vector3D.x (hPs.symm.trans hPu)
    simp only [pointAt] at hx
    linarith
  · norm_num [t1, crossNormSq, normal, startOffset, direction, CrossProduct, ScalarProduct,
      Subtract, Vector3D.Length, Vector3D.GetX, Vector3D.GetY, Vector3D.GetZ,
      Segment3D.GetStart, Segment3D.GetEnd]
  · norm_num [Intercept, CrossProduct, ScalarProduct, Subtract, Vector3D.Length, eps,
      Vector3D.GetX, Vector3D.GetY, Vector3D.GetZ, Segment3D.GetStart, Segment3D.GetEnd]

/-- Witness of C2: the coplanar segments `(0,0,0)→(2,0,0)` and `(1,-1,0)→(1,1,0)` get the point
`(1,0,0)`, which lies on both. -/
theorem Intercept_sound_of_coplanar_witness :
    Coplanar (⟨⟨0, 0, 0⟩, ⟨2, 0, 0⟩⟩ : Segment3D ℚ) ⟨⟨1, -1, 0⟩, ⟨1, 1, 0⟩⟩ ∧
    Intercept (⟨⟨0, 0, 0⟩, ⟨2, 0, 0⟩⟩ : Segment3D ℚ) ⟨⟨1, -1, 0⟩, ⟨1, 1, 0⟩⟩ = some ⟨1, 0, 0⟩ ∧
    OnSegment (⟨⟨0, 0, 0⟩, ⟨2, 0, 0⟩⟩ : Segment3D ℚ) ⟨1, 0, 0⟩ ∧
    OnSegment (⟨⟨1, -1, 0⟩, ⟨1, 1, 0⟩⟩ : Segment3D ℚ) ⟨1, 0, 0⟩ := by
  have hcop : Coplanar (⟨⟨0, 0, 0⟩, ⟨2, 0, 0⟩⟩ : Segment3D ℚ) ⟨⟨1, -1, 0⟩, ⟨1, 1, 0⟩⟩ := by
    norm_num [Coplanar, normal, startOffset, direction, CrossProduct, ScalarProduct, Subtract,
      Vector3D.GetX, Vector3D.GetY, Vector3D.GetZ, Segment3D.GetStart, Segment3D.GetEnd]
  have h : Intercept (⟨⟨0, 0, 0⟩, ⟨2, 0, 0⟩⟩ : Segment3D ℚ) ⟨⟨1, -1, 0⟩, ⟨1, 1, 0⟩⟩
      = some ⟨1, 0, 0⟩ := by
    norm_num [Intercept, CrossProduct, ScalarProduct, Subtract, Vector3D.Length, eps,
      Vector3D.GetX, Vector3D.GetY, Vector3D.GetZ, Segment3D.GetStart, Segment3D.GetEnd]
  exact ⟨hcop, h, Intercept_sound_of_coplanar.1 _ _ _ hcop h⟩

/-- C3. Symmetry of presence: `Intercept a b` returns a point if and only if `Intercept b a`
returns a point. -/
theorem Intercept_presence_symm (a b : Segment3D K) :
    (∃ P, Intercept a b = some P) ↔ (∃ Q, Intercept b a = some Q) := by
  constructor
  · rintro ⟨P, h⟩
    obtain ⟨hm, h10, h11, h20, h21, _⟩ := (Intercept_eq_some_iff a b P).mp h
    exact ⟨_, (Intercept_swap_eq_some_iff a b _).mpr ⟨hm, h10, h11, h20, h21, rfl⟩⟩
  · rintro ⟨Q, h⟩
    obtain ⟨hm, h10, h11, h20, h21, _⟩ := (Intercept_swap_eq_some_iff a b Q).mp h
    exact ⟨_, (Intercept_eq_some_iff a b _).mpr ⟨hm, h10, h11, h20, h21, rfl⟩⟩

/-- C5, as stated, fails: the collinear segments `(0,0,0)→(1,0,0)` and `(1,0,0)→(2,0,0)` share
exactly one endpoint, `(1,0,0)`, and `Intercept` returns the null pointer. -/
theorem Intercept_endpoint_touch_counterexample :
    ShareExactlyOneEndpoint (⟨⟨0, 0, 0⟩, ⟨1, 0, 0⟩⟩ : Segment3D ℚ) ⟨⟨1, 0, 0⟩, ⟨2, 0, 0⟩⟩
      ⟨1, 0, 0⟩ ∧
    Intercept (⟨⟨0, 0, 0⟩, ⟨1, 0, 0⟩⟩ : Segment3D ℚ) ⟨⟨1, 0, 0⟩, ⟨2, 0, 0⟩⟩ = none := by
  refine ⟨⟨Or.inr rfl, Or.inl rfl, ?_⟩, ?_⟩
  · rintro F (hF | hF) (hG | hG)
    · rw [hF] at hG
      norm_num at hG
    · rw [hF] at hG
      norm_num at hG
    · exact hF
    · exact hF
  · norm_num [Intercept, CrossProduct, ScalarProduct, Subtract, Vector3D.Length, eps,
      Vector3D.GetX, Vector3D.GetY, Vector3D.GetZ, Segment3D.GetStart, Segment3D.GetEnd]

/-- C5, amended. Endpoint touch away from the parallel case, in exact real arithmetic: for every
two segments that share exactly one endpoint `E` and have `|cross(d1, d2)|^2 ≥ eps`, `Intercept`
returns `E`. -/
theorem Intercept_endpoint_touch (seg1 seg2 : Segment3D K) (E : Vector3D K)
    (hshare : ShareExactlyOneEndpoint seg1 seg2 E) (hm : crossNormSq seg1 seg2 ≥ eps) :
    Intercept seg1 seg2 = some E :=
  Intercept_of_common_endpoint hm hshare.1 hshare.2.1

/-- Witness of C5 amended: `(0,0,0)→(1,0,0)` and `(1,0,0)→(1,1,0)` share exactly the endpoint
`(1,0,0)`, and `Intercept` returns it. -/
theorem Intercept_endpoint_touch_witness :
    ShareExactlyOneEndpoint (⟨⟨0, 0, 0⟩, ⟨1, 0, 0⟩⟩ : Segment3D ℚ) ⟨⟨1, 0, 0⟩, ⟨1, 1, 0⟩⟩
      ⟨1, 0, 0⟩ ∧
    crossNormSq (⟨⟨0, 0, 0⟩, ⟨1, 0, 0⟩⟩ : Segment3D ℚ) ⟨⟨1, 0, 0⟩, ⟨1, 1, 0⟩⟩ ≥ eps ∧
    Intercept (⟨⟨0, 0, 0⟩, ⟨1, 0, 0⟩⟩ : Segment3D ℚ) ⟨⟨1, 0, 0⟩, ⟨1, 1, 0⟩⟩ = some ⟨1, 0, 0⟩ := by
  have hshare : ShareExactlyOneEndpoint (⟨⟨0, 0, 0⟩, ⟨1, 0, 0⟩⟩ : Segment3D ℚ)
      ⟨⟨1, 0, 0⟩, ⟨1, 1, 0⟩⟩ ⟨1, 0, 0⟩ := by
    refine ⟨Or.inr rfl, Or.inl rfl, ?_⟩
    rintro F (hF | hF) (hG | hG)
    · rw [hF] at hG
      norm_num at hG
    · rw [hF] at hG
      norm_num at hG
    · exact hF
    · exact hF
  have hm : crossNormSq (⟨⟨0, 0, 0⟩, ⟨1, 0, 0⟩⟩ : Segment3D ℚ) ⟨⟨1, 0, 0⟩, ⟨1, 1, 0⟩⟩ ≥ eps := by
    norm_num [crossNormSq, normal, direction, CrossProduct, Subtract, Vector3D.Length, eps,
      Vector3D.GetX, Vector3D.GetY, Vector3D.GetZ, Segment3D.GetStart, Segment3D.GetEnd]
  exact ⟨hshare, hm, Intercept_endpoint_touch _ _ _ hshare hm⟩

/-- C7. Self-consistency: for every segment `s`, degenerate or not, `Intercept s s` returns the
null pointer. -/
theorem Intercept_self (s : Segment3D K) : Intercept s s = none := by
  apply Intercept_eq_none_of_lt
  rw [crossNormSq_eq_zero_of_dependent (Or.inl ⟨1, (scale_one _).symm⟩)]
  exact eps_pos

/-- C8. Characterisation of `Intercept` against the stated algorithm: with `m`, `t1`, `t2` as
in the description, `Intercept` returns a point if and only if `m ≥ eps`, `0 ≤ t1 ≤ 1` and
`0 ≤ t2 ≤ 1`; in that case the point is `seg1.start + t1 * d1`, and in every other case the
result is the null pointer. -/
theorem Intercept_characterisation (seg1 seg2 : Segment3D K) :
    ((∃ P, Intercept seg1 seg2 = some P) ↔
      (crossNormSq seg1 seg2 ≥ eps ∧ (0 ≤ t1 seg1 seg2 ∧ t1 seg1 seg2 ≤ 1) ∧
        (0 ≤ t2 seg1 seg2 ∧ t2 seg1 seg2 ≤ 1))) ∧
    ((crossNormSq seg1 seg2 ≥ eps ∧ (0 ≤ t1 seg1 seg2 ∧ t1 seg1 seg2 ≤ 1) ∧
        (0 ≤ t2 seg1 seg2 ∧ t2 seg1 seg2 ≤ 1)) →
      Intercept seg1 seg2 = some
        { x := seg1.start.x + t1 seg1 seg2 * (direction seg1).x
          y := seg1.start.y + t1 seg1 seg2 * (direction seg1).y
          z := seg1.start.z + t1 seg1 seg2 * (direction seg1).z }) ∧
    (¬ (crossNormSq seg1 seg2 ≥ eps ∧ (0 ≤ t1 seg1 seg2 ∧ t1 seg1 seg2 ≤ 1) ∧
        (0 ≤ t2 seg1 seg2 ∧ t2 seg1 seg2 ≤ 1)) →
      Intercept seg1 seg2 = none) := by
  have hiff : ∀ P, Intercept seg1 seg2 = some P ↔
      (crossNormSq seg1 seg2 ≥ eps ∧ (0 ≤ t1 seg1 seg2 ∧ t1 seg1 seg2 ≤ 1) ∧
        (0 ≤ t2 seg1 seg2 ∧ t2 seg1 seg2 ≤ 1)) ∧ P = pointAt seg1 (t1 seg1 seg2) := by
    intro P
    rw [Intercept_eq_some_iff]
    constructor
    · rintro ⟨hm, h10, h11, h20, h21, hP⟩
      exact ⟨⟨hm, ⟨h10, h11⟩, ⟨h20, h21⟩⟩, hP⟩
    · rintro ⟨⟨hm, ⟨h10, h11⟩, ⟨h20, h21⟩⟩, hP⟩
      exact ⟨hm, h10, h11, h20, h21, hP⟩
  refine ⟨?_, ?_, ?_⟩
  · constructor
    · rintro ⟨P, hP⟩
      exact ((hiff P).mp hP).1
    · intro hc
      exact ⟨_, (hiff _).mpr ⟨hc, rfl⟩⟩
  · intro hc
    exact (hiff _).mpr ⟨hc, rfl⟩
  · intro hc
    cases h : Intercept seg1 seg2 with
    | none => rfl
    | some P => exact absurd ((hiff P).mp h).1 hc

/-- Witness of C8: for `(0,0,0)→(2,0,0)` and `(1,-1,0)→(1,1,0)` the three conditions hold
(`m = 16`, `t1 = t2 = 1/2`) and the point `(1,0,0)` is returned. -/
theorem Intercept_characterisation_witness :
    (crossNormSq (⟨⟨0, 0, 0⟩, ⟨2, 0, 0⟩⟩ : Segment3D ℚ) ⟨⟨1, -1, 0⟩, ⟨1, 1, 0⟩⟩ ≥ eps ∧
      (0 ≤ t1 (⟨⟨0, 0, 0⟩, ⟨2, 0, 0⟩⟩ : Segment3D ℚ) ⟨⟨1, -1, 0⟩, ⟨1, 1, 0⟩⟩ ∧
        t1 (⟨⟨0, 0, 0⟩, ⟨2, 0, 0⟩⟩ : Segment3D ℚ) ⟨⟨1, -1, 0⟩, ⟨1, 1, 0⟩⟩ ≤ 1) ∧
      (0 ≤ t2 (⟨⟨0, 0, 0⟩, ⟨2, 0, 0⟩⟩ : Segment3D ℚ) ⟨⟨1, -1, 0⟩, ⟨1, 1, 0⟩⟩ ∧
        t2 (⟨⟨0, 0, 0⟩, ⟨2, 0, 0⟩⟩ : Segment3D ℚ) ⟨⟨1, -1, 0⟩, ⟨1, 1, 0⟩⟩ ≤ 1)) ∧
    ∃ P, Intercept (⟨⟨0, 0, 0⟩, ⟨2, 0, 0⟩⟩ : Segment3D ℚ) ⟨⟨1, -1, 0⟩, ⟨1, 1, 0⟩⟩ = some P := by
  have hc : crossNormSq (⟨⟨0, 0, 0⟩, ⟨2, 0, 0⟩⟩ : Segment3D ℚ) ⟨⟨1, -1, 0⟩, ⟨1, 1, 0⟩⟩ ≥ eps ∧
      (0 ≤ t1 (⟨⟨0, 0, 0⟩, ⟨2, 0, 0⟩⟩ : Segment3D ℚ) ⟨⟨1, -1, 0⟩, ⟨1, 1, 0⟩⟩ ∧
        t1 (⟨⟨0, 0, 0⟩, ⟨2, 0, 0⟩⟩ : Segment3D ℚ) ⟨⟨1, -1, 0⟩, ⟨1, 1, 0⟩⟩ ≤ 1) ∧
      (0 ≤ t2 (⟨⟨0, 0, 0⟩, ⟨2, 0, 0⟩⟩ : Segment3D ℚ) ⟨⟨1, -1, 0⟩, ⟨1, 1, 0⟩⟩ ∧
        t2 (⟨⟨0, 0, 0⟩, ⟨2, 0, 0⟩⟩ : Segment3D ℚ) ⟨⟨1, -1, 0⟩, ⟨1, 1, 0⟩⟩ ≤ 1) := by
    norm_num [t1, t2, crossNormSq, normal, startOffset, direction, CrossProduct, ScalarProduct,
      Subtract, Vector3D.Length, eps, Vector3D.GetX, Vector3D.GetY, Vector3D.GetZ,
      Segment3D.GetStart, Segment3D.GetEnd]
  exact ⟨hc, (Intercept_characterisation _ _).1.mpr hc⟩

/-- C9. Golden worked example: for `seg1 = (0,3,3)→(3,3,3)` and `seg2 = (0,0,0)→(11,5,0)` the
formula gives `m = 225`, `t1 = 11/5` and `t2 = 3/5`, so `Intercept` returns the null pointer and
the driver prints `No intersection point found.` -/
theorem Intercept_golden_example :
    crossNormSq (main_s1 : Segment3D K) main_s2 = 225 ∧
    t1 (main_s1 : Segment3D K) main_s2 = 11 / 5 ∧
    t2 (main_s1 : Segment3D K) main_s2 = 3 / 5 ∧
    Intercept (main_s1 : Segment3D K) main_s2 = none ∧
    (main : Output K) = Output.message ("No intersection point found.") := by
  have hnone : Intercept (main_s1 : Segment3D K) main_s2 = none := by
    norm_num [Intercept, main_s1, main_s2, CrossProduct, ScalarProduct, Subtract,
      Vector3D.Length, eps, Vector3D.GetX, Vector3D.GetY, Vector3D.GetZ, Segment3D.GetStart,
      Segment3D.GetEnd]
  refine ⟨?_, ?_, ?_, hnone, ?_⟩
  · norm_num [main_s1, main_s2, crossNormSq, normal, direction, CrossProduct, Subtract,
      Vector3D.Length, Vector3D.GetX, Vector3D.GetY, Vector3D.GetZ, Segment3D.GetStart,
      Segment3D.GetEnd]
  · norm_num [main_s1, main_s2, t1, crossNormSq, normal, startOffset, direction, CrossProduct,
      ScalarProduct, Subtract, Vector3D.Length, Vector3D.GetX, Vector3D.GetY, Vector3D.GetZ,
      Segment3D.GetStart, Segment3D.GetEnd]
  · norm_num [main_s1, main_s2, t2, crossNormSq, normal, startOffset, direction, CrossProduct,
      ScalarProduct, Subtract, Vector3D.Length, Vector3D.GetX, Vector3D.GetY, Vector3D.GetZ,
      Segment3D.GetStart, Segment3D.GetEnd]
  · unfold main
    rw [hnone]

/-- C10, amended. In exact real arithmetic `Intercept` is total and never fails: it returns a
point or the null pointer, with both divisions checked it never meets a zero divisor and returns
the same result, and every divisor it evaluates is `m ≥ eps > 0`.  On binary64 it returns a point
or the null pointer as well, and every divisor it evaluates is the computed `m` with
`m < eps` false, hence never a zero (it can be a NaN). -/
theorem Intercept_total (seg1 seg2 : Segment3D K) :
    (Intercept seg1 seg2 = none ∨ ∃ P, Intercept seg1 seg2 = some P) ∧
    InterceptChecked seg1 seg2 = some (Intercept seg1 seg2) ∧
    (∀ d ∈ InterceptDivisors seg1 seg2, d = crossNormSq seg1 seg2 ∧ d ≥ eps ∧ 0 < d) ∧
    (0 : K) < eps ∧
    (∀ s1 s2 : Segment3D Double,
      (Binary64.Intercept s1 s2 = none ∨ ∃ P, Binary64.Intercept s1 s2 = some P) ∧
      ∀ d ∈ Binary64.InterceptDivisors s1 s2,
        d = Binary64.crossNormSq s1 s2 ∧ Double.lt d Binary64.eps = false ∧
          d.isZero = false) := by
  refine ⟨?_, ?_, ?_, eps_pos, fun s1 s2 => ⟨?_, Binary64.InterceptDivisors_spec s1 s2⟩⟩
  · cases Intercept seg1 seg2 with
    | none => exact Or.inl rfl
    | some P => exact Or.inr ⟨P, rfl⟩
  · by_cases hm : crossNormSq seg1 seg2 < eps
    · have hm' := hm
      unfold crossNormSq normal direction at hm'
      simp only [InterceptChecked, Intercept, if_pos hm']
    · have hm' := hm
      unfold crossNormSq normal direction at hm'
      have hne : (CrossProduct (Subtract seg1.GetEnd seg1.GetStart)
          (Subtract seg2.GetEnd seg2.GetStart)).Length ≠ 0 :=
        ne_of_gt (crossNormSq_pos_of_eps_le (not_lt.mp hm))
      simp only [InterceptChecked, Intercept, if_neg hm', checkedDiv, if_neg hne,
        Option.some_bind]
      split_ifs <;> rfl
  · intro d hd
    by_cases hm : crossNormSq seg1 seg2 < eps
    · have hm' := hm
      unfold crossNormSq normal direction at hm'
      simp only [InterceptDivisors, if_pos hm', List.not_mem_nil] at hd
    · have hm' := hm
      unfold crossNormSq normal direction at hm'
      simp only [InterceptDivisors, if_neg hm', List.mem_cons, List.mem_singleton, or_self,
        List.not_mem_nil, or_false] at hd
      have hd' : d = crossNormSq seg1 seg2 := hd
      rw [hd']
      exact ⟨rfl, not_lt.mp hm, crossNormSq_pos_of_eps_le (not_lt.mp hm)⟩
  · cases Binary64.Intercept s1 s2 with
    | none => exact Or.inl rfl
    | some P => exact Or.inr ⟨P, rfl⟩

end Contract

/-! ## Vector algebra, segments and further behaviour of the solver -/

section Behaviour

variable {K : Type} [LinearOrderedField K]

/-- C11, amended. In exact real arithmetic the method `Segment3D::Length` is the squared
magnitude of `end - start`: it equals `Subtract(end, start).Length()`, that is
`(ex-sx)^2 + (ey-sy)^2 + (ez-sz)^2` with no square root; it is non-negative and it is `0` exactly
when `start = end`.  On binary64 it is still `Subtract(end, start).Length()`, operation for
operation. -/
theorem Segment3D_Length_squared (s : Segment3D K) :
    s.Length = (Subtract s.«end» s.start).Length ∧
    s.Length = (s.«end».x - s.start.x) ^ 2 + (s.«end».y - s.start.y) ^ 2
      + (s.«end».z - s.start.z) ^ 2 ∧
    0 ≤ s.Length ∧
    (s.Length = 0 ↔ s.start = s.«end») ∧
    (∀ r : Segment3D Double,
      Binary64.Segment3D.Length r = Binary64.Vector3D.Length (Binary64.Subtract r.«end» r.start))
    := by
  have h1 : s.Length = (Subtract s.«end» s.start).Length := by
    simp only [Segment3D.Length, ScalarProduct, Vector3D.Length, Vector3D.GetX, Vector3D.GetY,
      Vector3D.GetZ]
  refine ⟨h1, ?_, ?_, ?_, fun r => rfl⟩
  · simp only [Segment3D.Length, ScalarProduct, Subtract, Vector3D.GetX, Vector3D.GetY,
      Vector3D.GetZ]
    ring
  · rw [h1]
    exact Length_nonneg _
  · rw [h1, Length_eq_zero_iff, Subtract_eq_zero_iff]
    exact eq_comm

/-- C12, amended. Endpoint touch for non-parallel segments, in exact real arithmetic: when
`|cross(d1, d2)|^2 ≥ eps`, a common endpoint `E` of the two segments is exactly what `Intercept`
returns, in each of the four configurations: `seg1.end = seg2.start` (`t1 = 1`, `t2 = 0`),
`seg1.start = seg2.start` (`t1 = t2 = 0`), `seg1.start = seg2.end` (`t1 = 0`, `t2 = 1`) and
`seg1.end = seg2.end` (`t1 = t2 = 1`). -/
theorem Intercept_common_endpoint (seg1 seg2 : Segment3D K)
    (hm : crossNormSq seg1 seg2 ≥ eps) :
    (∀ E, IsEndpoint seg1 E → IsEndpoint seg2 E → Intercept seg1 seg2 = some E) ∧
    (seg1.«end» = seg2.start →
      t1 seg1 seg2 = 1 ∧ t2 seg1 seg2 = 0 ∧ Intercept seg1 seg2 = some seg1.«end») ∧
    (seg1.start = seg2.start →
      t1 seg1 seg2 = 0 ∧ t2 seg1 seg2 = 0 ∧ Intercept seg1 seg2 = some seg1.start) ∧
    (seg1.start = seg2.«end» →
      t1 seg1 seg2 = 0 ∧ t2 seg1 seg2 = 1 ∧ Intercept seg1 seg2 = some seg1.start) ∧
    (seg1.«end» = seg2.«end» →
      t1 seg1 seg2 = 1 ∧ t2 seg1 seg2 = 1 ∧ Intercept seg1 seg2 = some seg1.«end») := by
  refine ⟨fun E h1 h2 => Intercept_of_common_endpoint hm h1 h2, ?_, ?_, ?_, ?_⟩
  · intro h
    have hc : pointAt seg1 1 = pointAt seg2 0 := by rw [pointAt_one, pointAt_zero, h]
    exact ⟨t1_of_common hm hc, t2_of_common hm hc,
      Intercept_of_common_endpoint hm (Or.inr rfl) (Or.inl h)⟩
  · intro h
    have hc : pointAt seg1 0 = pointAt seg2 0 := by rw [pointAt_zero, pointAt_zero, h]
    exact ⟨t1_of_common hm hc, t2_of_common hm hc,
      Intercept_of_common_endpoint hm (Or.inl rfl) (Or.inl h)⟩
  · intro h
    have hc : pointAt seg1 0 = pointAt seg2 1 := by rw [pointAt_zero, pointAt_one, h]
    exact ⟨t1_of_common hm hc, t2_of_common hm hc,
      Intercept_of_common_endpoint hm (Or.inl rfl) (Or.inr h)⟩
  · intro h
    have hc : pointAt seg1 1 = pointAt seg2 1 := by rw [pointAt_one, pointAt_one, h]
    exact ⟨t1_of_common hm hc, t2_of_common hm hc,
      Intercept_of_common_endpoint hm (Or.inr rfl) (Or.inr h)⟩

/-- Witness of C12 amended: for `(0,0,0)→(1,0,0)` and `(1,0,0)→(1,1,0)`, where `seg1.end = seg2.start`
and `m = 1`, the parameters are `t1 = 1`, `t2 = 0` and the point `(1,0,0)` is returned. -/
theorem Intercept_common_endpoint_witness :
    crossNormSq (⟨⟨0, 0, 0⟩, ⟨1, 0, 0⟩⟩ : Segment3D ℚ) ⟨⟨1, 0, 0⟩, ⟨1, 1, 0⟩⟩ ≥ eps ∧
    t1 (⟨⟨0, 0, 0⟩, ⟨1, 0, 0⟩⟩ : Segment3D ℚ) ⟨⟨1, 0, 0⟩, ⟨1, 1, 0⟩⟩ = 1 ∧
    t2 (⟨⟨0, 0, 0⟩, ⟨1, 0, 0⟩⟩ : Segment3D ℚ) ⟨⟨1, 0, 0⟩, ⟨1, 1, 0⟩⟩ = 0 ∧
    Intercept (⟨⟨0, 0, 0⟩, ⟨1, 0, 0⟩⟩ : Segment3D ℚ) ⟨⟨1, 0, 0⟩, ⟨1, 1, 0⟩⟩ = some ⟨1, 0, 0⟩ := by
  have hm : crossNormSq (⟨⟨0, 0, 0⟩, ⟨1, 0, 0⟩⟩ : Segment3D ℚ) ⟨⟨1, 0, 0⟩, ⟨1, 1, 0⟩⟩ ≥ eps := by
    norm_num [crossNormSq, normal, direction, CrossProduct, Subtract, Vector3D.Length, eps,
      Vector3D.GetX, Vector3D.GetY, Vector3D.GetZ, Segment3D.GetStart, Segment3D.GetEnd]
  exact ⟨hm, (Intercept_common_endpoint _ _ hm).2.1 rfl⟩

/-- C13. Skew segments can yield a spurious point: the supporting lines of `(0,0,0)→(1,0,0)` and
`(0,0,1)→(0,1,1)` are not parallel (`m = 1`, the directions are linearly independent) and have
no common point, yet `Intercept` returns `(0,0,0)`, which lies on segment 1 and not on
segment 2 (not even on its supporting line). -/
theorem Intercept_skew_spurious :
    crossNormSq (⟨⟨0, 0, 0⟩, ⟨1, 0, 0⟩⟩ : Segment3D K) ⟨⟨0, 0, 1⟩, ⟨0, 1, 1⟩⟩ = 1 ∧
    ¬ ((∃ k : K, direction (⟨⟨0, 0, 1⟩, ⟨0, 1, 1⟩⟩ : Segment3D K)
          = scale k (direction (⟨⟨0, 0, 0⟩, ⟨1, 0, 0⟩⟩ : Segment3D K))) ∨
        direction (⟨⟨0, 0, 0⟩, ⟨1, 0, 0⟩⟩ : Segment3D K) = zeroVector ∨
        direction (⟨⟨0, 0, 1⟩, ⟨0, 1, 1⟩⟩ : Segment3D K) = zeroVector) ∧
    (¬ ∃ P, OnLine (⟨⟨0, 0, 0⟩, ⟨1, 0, 0⟩⟩ : Segment3D K) P ∧
        OnLine (⟨⟨0, 0, 1⟩, ⟨0, 1, 1⟩⟩ : Segment3D K) P) ∧
    Intercept (⟨⟨0, 0, 0⟩, ⟨1, 0, 0⟩⟩ : Segment3D K) ⟨⟨0, 0, 1⟩, ⟨0, 1, 1⟩⟩ = some ⟨0, 0, 0⟩ ∧
    OnSegment (⟨⟨0, 0, 0⟩, ⟨1, 0, 0⟩⟩ : Segment3D K) ⟨0, 0, 0⟩ ∧
    ¬ OnSegment (⟨⟨0, 0, 1⟩, ⟨0, 1, 1⟩⟩ : Segment3D K) ⟨0, 0, 0⟩ ∧
    ¬ OnLine (⟨⟨0, 0, 1⟩, ⟨0, 1, 1⟩⟩ : Segment3D K) ⟨0, 0, 0⟩ := by
  have hline : ¬ OnLine (⟨⟨0, 0, 1⟩, ⟨0, 1, 1⟩⟩ : Segment3D K) ⟨0, 0, 0⟩ := by
    rintro ⟨u, hu⟩
    have hz := congrArg Vector3D.z hu
    simp [pointAt] at hz
  refine ⟨?_, ?_, ?_, ?_, ⟨0, le_refl 0, zero_le_one, ?_⟩, ?_, hline⟩
  · norm_num [crossNormSq, normal, direction, CrossProduct, Subtract, Vector3D.Length,
      Vector3D.GetX, Vector3D.GetY, Vector3D.GetZ, Segment3D.GetStart, Segment3D.GetEnd]
  · rintro (⟨k, hk⟩ | h | h)
    · have hy := congrArg Vector3D.y hk
      simp [direction, scale, Subtract, Vector3D.GetX, Vector3D.GetY, Vector3D.GetZ,
        Segment3D.GetStart, Segment3D.GetEnd] at hy
    · have hx := congrArg Vector3D.x h
      simp [direction, zeroVector, Subtract, Vector3D.GetX, Vector3D.GetY, Vector3D.GetZ,
        Segment3D.GetStart, Segment3D.GetEnd] at hx
    · have hy := congrArg Vector3D.y h
      simp [direction, zeroVector, Subtract, Vector3D.GetX, Vector3D.GetY, Vector3D.GetZ,
        Segment3D.GetStart, Segment3D.GetEnd] at hy
  · rintro ⟨P, ⟨s, hs⟩, ⟨u, hu⟩⟩
    have hz := congrArg Vector3D.z (hs.symm.trans hu)
    simp [pointAt] at hz
  · norm_num [Intercept, CrossProduct, ScalarProduct, Subtract, Vector3D.Length, eps,
      Vector3D.GetX, Vector3D.GetY, Vector3D.GetZ, Segment3D.GetStart, Segment3D.GetEnd]
  · simp [pointAt]
  · rintro ⟨u, _, _, hu⟩
    exact hline ⟨u, hu⟩

/-- C14, as stated, fails: the perpendicular segments `(0,0,0)→(1/1024,0,0)` and
`(0,0,0)→(0,1/1024,0)` have `m = 2^(-40) < eps`, so `Intercept` returns the null pointer from the
parallel branch, although neither direction is a multiple of the other and neither is zero. -/
theorem tolerance_test_counterexample :
    crossNormSq (⟨⟨0, 0, 0⟩, ⟨1 / 1024, 0, 0⟩⟩ : Segment3D ℚ) ⟨⟨0, 0, 0⟩, ⟨0, 1 / 1024, 0⟩⟩ < eps ∧
    Intercept (⟨⟨0, 0, 0⟩, ⟨1 / 1024, 0, 0⟩⟩ : Segment3D ℚ) ⟨⟨0, 0, 0⟩, ⟨0, 1 / 1024, 0⟩⟩ = none ∧
    ¬ ((∃ k : ℚ, direction (⟨⟨0, 0, 0⟩, ⟨0, 1 / 1024, 0⟩⟩ : Segment3D ℚ)
          = scale k (direction (⟨⟨0, 0, 0⟩, ⟨1 / 1024, 0, 0⟩⟩ : Segment3D ℚ))) ∨
        (∃ k : ℚ, direction (⟨⟨0, 0, 0⟩, ⟨1 / 1024, 0, 0⟩⟩ : Segment3D ℚ)
          = scale k (direction (⟨⟨0, 0, 0⟩, ⟨0, 1 / 1024, 0⟩⟩ : Segment3D ℚ))) ∨
        direction (⟨⟨0, 0, 0⟩, ⟨1 / 1024, 0, 0⟩⟩ : Segment3D ℚ) = zeroVector ∨
        direction (⟨⟨0, 0, 0⟩, ⟨0, 1 / 1024, 0⟩⟩ : Segment3D ℚ) = zeroVector) := by
  refine ⟨?_, ?_, ?_⟩
  · norm_num [crossNormSq, normal, direction, CrossProduct, Subtract, Vector3D.Length, eps,
      Vector3D.GetX, Vector3D.GetY, Vector3D.GetZ, Segment3D.GetStart, Segment3D.GetEnd]
  · norm_num [Intercept, CrossProduct, ScalarProduct, Subtract, Vector3D.Length, eps,
      Vector3D.GetX, Vector3D.GetY, Vector3D.GetZ, Segment3D.GetStart, Segment3D.GetEnd]
  · rintro (⟨k, hk⟩ | ⟨k, hk⟩ | h | h)
    · have hy := congrArg Vector3D.y hk
      norm_num [direction, scale, Subtract, Vector3D.GetX, Vector3D.GetY, Vector3D.GetZ,
        Segment3D.GetStart, Segment3D.GetEnd] at hy
    · have hx := congrArg Vector3D.x hk
      norm_num [direction, scale, Subtract, Vector3D.GetX, Vector3D.GetY, Vector3D.GetZ,
        Segment3D.GetStart, Segment3D.GetEnd] at hx
    · have hx := congrArg Vector3D.x h
      norm_num [direction, zeroVector, Subtract, Vector3D.GetX, Vector3D.GetY, Vector3D.GetZ,
        Segment3D.GetStart, Segment3D.GetEnd] at hx
    · have hy := congrArg Vector3D.y h
      norm_num [direction, zeroVector, Subtract, Vector3D.GetX, Vector3D.GetY, Vector3D.GetZ,
        Segment3D.GetStart, Segment3D.GetEnd] at hy

/-- C14, amended. Meaning of the tolerance test, in exact real arithmetic with `eps = 10^(-8)`:
whenever `m < eps`, `Intercept` returns the null pointer from the parallel branch; the directions
are parallel or `d1` is zero-length (`d2 = k * d1` for some `k`, which covers `d2 = 0`, or
`d1 = 0`) exactly when `m = 0`, and `m = 0` is below the tolerance. -/
theorem tolerance_test_meaning (seg1 seg2 : Segment3D K) :
    (crossNormSq seg1 seg2 < eps → Intercept seg1 seg2 = none) ∧
    (crossNormSq seg1 seg2 = 0 →
      crossNormSq seg1 seg2 < eps ∧
        ((∃ k : K, direction seg2 = scale k (direction seg1)) ∨ direction seg1 = zeroVector)) ∧
    (((∃ k : K, direction seg2 = scale k (direction seg1)) ∨ direction seg1 = zeroVector) →
      crossNormSq seg1 seg2 = 0) := by
  refine ⟨Intercept_eq_none_of_lt, ?_, (crossNormSq_eq_zero_iff seg1 seg2).mpr⟩
  intro h
  refine ⟨?_, (crossNormSq_eq_zero_iff seg1 seg2).mp h⟩
  rw [h]
  exact eps_pos

/-- Witness of C14 amended: the parallel segments `(0,0,0)→(1,0,0)` and `(0,1,0)→(2,1,0)` have
`m = 0`, and `d2 = 2 * d1`. -/
theorem tolerance_test_meaning_witness :
    crossNormSq (⟨⟨0, 0, 0⟩, ⟨1, 0, 0⟩⟩ : Segment3D ℚ) ⟨⟨0, 1, 0⟩, ⟨2, 1, 0⟩⟩ = 0 ∧
    crossNormSq (⟨⟨0, 0, 0⟩, ⟨1, 0, 0⟩⟩ : Segment3D ℚ) ⟨⟨0, 1, 0⟩, ⟨2, 1, 0⟩⟩ < eps ∧
    ((∃ k : ℚ, direction (⟨⟨0, 1, 0⟩, ⟨2, 1, 0⟩⟩ : Segment3D ℚ)
        = scale k (direction (⟨⟨0, 0, 0⟩, ⟨1, 0, 0⟩⟩ : Segment3D ℚ))) ∨
      direction (⟨⟨0, 0, 0⟩, ⟨1, 0, 0⟩⟩ : Segment3D ℚ) = zeroVector) := by
  have h : crossNormSq (⟨⟨0, 0, 0⟩, ⟨1, 0, 0⟩⟩ : Segment3D ℚ) ⟨⟨0, 1, 0⟩, ⟨2, 1, 0⟩⟩ = 0 := by
    norm_num [crossNormSq, normal, direction, CrossProduct, Subtract, Vector3D.Length,
      Vector3D.GetX, Vector3D.GetY, Vector3D.GetZ, Segment3D.GetStart, Segment3D.GetEnd]
  exact ⟨h, (tolerance_test_meaning _ _).2.1 h⟩

/-- C15, amended. In exact real arithmetic the result of `Intercept` (presence and point) does
not depend on the orientation of either segment: for `seg1 = A→B` and `seg2 = C→D`,
`Intercept (B→A) (C→D) = Intercept (A→B) (D→C) = Intercept (A→B) (C→D)`; `m` is unchanged, and
where the tolerance test passes, reversing a segment maps its parameter `t` to `1 - t` and leaves
the other parameter unchanged. -/
theorem Intercept_orientation_independent (A B C D : Vector3D K) :
    Intercept (⟨B, A⟩ : Segment3D K) ⟨C, D⟩ = Intercept (⟨A, B⟩ : Segment3D K) ⟨C, D⟩ ∧
    Intercept (⟨A, B⟩ : Segment3D K) ⟨D, C⟩ = Intercept (⟨A, B⟩ : Segment3D K) ⟨C, D⟩ ∧
    Intercept (⟨B, A⟩ : Segment3D K) ⟨C, D⟩ = Intercept (⟨A, B⟩ : Segment3D K) ⟨D, C⟩ ∧
    crossNormSq (⟨B, A⟩ : Segment3D K) ⟨C, D⟩ = crossNormSq (⟨A, B⟩ : Segment3D K) ⟨C, D⟩ ∧
    crossNormSq (⟨A, B⟩ : Segment3D K) ⟨D, C⟩ = crossNormSq (⟨A, B⟩ : Segment3D K) ⟨C, D⟩ ∧
    (crossNormSq (⟨A, B⟩ : Segment3D K) ⟨C, D⟩ ≥ eps →
      t1 (⟨B, A⟩ : Segment3D K) ⟨C, D⟩ = 1 - t1 (⟨A, B⟩ : Segment3D K) ⟨C, D⟩ ∧
      t2 (⟨B, A⟩ : Segment3D K) ⟨C, D⟩ = t2 (⟨A, B⟩ : Segment3D K) ⟨C, D⟩ ∧
      t1 (⟨A, B⟩ : Segment3D K) ⟨D, C⟩ = t1 (⟨A, B⟩ : Segment3D K) ⟨C, D⟩ ∧
      t2 (⟨A, B⟩ : Segment3D K) ⟨D, C⟩ = 1 - t2 (⟨A, B⟩ : Segment3D K) ⟨C, D⟩) := by
  have hl := Intercept_reversed_left (⟨A, B⟩ : Segment3D K) ⟨C, D⟩
  have hr := Intercept_reversed_right (⟨A, B⟩ : Segment3D K) ⟨C, D⟩
  have hml := crossNormSq_reversed_left (⟨A, B⟩ : Segment3D K) ⟨C, D⟩
  have hmr := crossNormSq_reversed_right (⟨A, B⟩ : Segment3D K) ⟨C, D⟩
  have h2l := t2_reversed_left (⟨A, B⟩ : Segment3D K) ⟨C, D⟩
  have h1r := t1_reversed_right (⟨A, B⟩ : Segment3D K) ⟨C, D⟩
  simp only [Segment3D.reversed] at hl hr hml hmr h2l h1r
  refine ⟨hl, hr, hl.trans hr.symm, hml, hmr, ?_⟩
  intro hm
  have hne : crossNormSq (⟨A, B⟩ : Segment3D K) ⟨C, D⟩ ≠ 0 :=
    ne_of_gt (crossNormSq_pos_of_eps_le hm)
  have h1l := t1_reversed_left hne
  have h2r := t2_reversed_right hne
  simp only [Segment3D.reversed] at h1l h2r
  exact ⟨h1l, h2l, h1r, h2r⟩

/-- Witness of C15 amended: for `A→B = (0,0,0)→(4,0,0)` and `C→D = (1,-1,0)→(1,3,0)`, where `m = 256`,
`t1 = 1/4` and `t2 = 1/4`, the reversed first segment has `t1 = 3/4` and the reversed second
segment has `t2 = 3/4`. -/
theorem Intercept_orientation_independent_witness :
    crossNormSq (⟨⟨0, 0, 0⟩, ⟨4, 0, 0⟩⟩ : Segment3D ℚ) ⟨⟨1, -1, 0⟩, ⟨1, 3, 0⟩⟩ ≥ eps ∧
    t1 (⟨⟨0, 0, 0⟩, ⟨4, 0, 0⟩⟩ : Segment3D ℚ) ⟨⟨1, -1, 0⟩, ⟨1, 3, 0⟩⟩ = 1 / 4 ∧
    t1 (⟨⟨4, 0, 0⟩, ⟨0, 0, 0⟩⟩ : Segment3D ℚ) ⟨⟨1, -1, 0⟩, ⟨1, 3, 0⟩⟩
      = 1 - t1 (⟨⟨0, 0, 0⟩, ⟨4, 0, 0⟩⟩ : Segment3D ℚ) ⟨⟨1, -1, 0⟩, ⟨1, 3, 0⟩⟩ := by
  have hm : crossNormSq (⟨⟨0, 0, 0⟩, ⟨4, 0, 0⟩⟩ : Segment3D ℚ) ⟨⟨1, -1, 0⟩, ⟨1, 3, 0⟩⟩ ≥ eps := by
    norm_num [crossNormSq, normal, direction, CrossProduct, Subtract, Vector3D.Length, eps,
      Vector3D.GetX, Vector3D.GetY, Vector3D.GetZ, Segment3D.GetStart, Segment3D.GetEnd]
  refine ⟨hm, ?_, ((Intercept_orientation_independent _ _ _ _).2.2.2.2.2 hm).1⟩
  norm_num [t1, crossNormSq, normal, startOffset, direction, CrossProduct, ScalarProduct,
    Subtract, Vector3D.Length, Vector3D.GetX, Vector3D.GetY, Vector3D.GetZ,
    Segment3D.GetStart, Segment3D.GetEnd]

/-- C16, amended. In exact real arithmetic, whenever `Intercept seg1 seg2` returns a point `P`,
with `Q = seg2.start + t2 * d2` the corresponding point of segment 2, the vector `P - Q` is
orthogonal to `d1` and to `d2`; `P` and `Q` are mutually closest points of the two supporting
lines (no pair of points, one on each line, is at a smaller squared distance); and `P = Q`
exactly when the lines are coplanar. -/
theorem Intercept_closest_points (seg1 seg2 : Segment3D K) (P : Vector3D K)
    (h : Intercept seg1 seg2 = some P) :
    ScalarProduct (Subtract P (pointAt seg2 (t2 seg1 seg2))) (direction seg1) = 0 ∧
    ScalarProduct (Subtract P (pointAt seg2 (t2 seg1 seg2))) (direction seg2) = 0 ∧
    (∀ s u : K, (Subtract P (pointAt seg2 (t2 seg1 seg2))).Length
      ≤ (Subtract (pointAt seg1 s) (pointAt seg2 u)).Length) ∧
    (P = pointAt seg2 (t2 seg1 seg2) ↔ Coplanar seg1 seg2) := by
  obtain ⟨hm, _, _, _, _, hP⟩ := (Intercept_eq_some_iff seg1 seg2 P).mp h
  have hne : crossNormSq seg1 seg2 ≠ 0 := ne_of_gt (crossNormSq_pos_of_eps_le hm)
  have h1 : ScalarProduct (Subtract (pointAt seg1 (t1 seg1 seg2)) (pointAt seg2 (t2 seg1 seg2)))
      (direction seg1) = 0 := by
    rw [Subtract_pointAt_t1_t2 hne]
    exact (ScalarProduct_scale_normal seg1 seg2 _).1
  have h2 : ScalarProduct (Subtract (pointAt seg1 (t1 seg1 seg2)) (pointAt seg2 (t2 seg1 seg2)))
      (direction seg2) = 0 := by
    rw [Subtract_pointAt_t1_t2 hne]
    exact (ScalarProduct_scale_normal seg1 seg2 _).2
  rw [hP]
  refine ⟨h1, h2, fun s u => Length_le_of_orthogonal seg1 seg2 _ _ s u h1 h2, ?_, ?_⟩
  · exact coplanar_of_common
  · exact pointAt_t1_eq_pointAt_t2 hne

/-- Witness of C16 amended: for the skew segments `(0,0,0)→(1,0,0)` and `(0,0,1)→(0,1,1)` the returned
point is `P = (0,0,0)`, and `P - Q` is orthogonal to `d1 = (1,0,0)`. -/
theorem Intercept_closest_points_witness :
    Intercept (⟨⟨0, 0, 0⟩, ⟨1, 0, 0⟩⟩ : Segment3D ℚ) ⟨⟨0, 0, 1⟩, ⟨0, 1, 1⟩⟩ = some ⟨0, 0, 0⟩ ∧
    ScalarProduct
      (Subtract (⟨0, 0, 0⟩ : Vector3D ℚ)
        (pointAt (⟨⟨0, 0, 1⟩, ⟨0, 1, 1⟩⟩ : Segment3D ℚ)
          (t2 (⟨⟨0, 0, 0⟩, ⟨1, 0, 0⟩⟩ : Segment3D ℚ) ⟨⟨0, 0, 1⟩, ⟨0, 1, 1⟩⟩)))
      (direction (⟨⟨0, 0, 0⟩, ⟨1, 0, 0⟩⟩ : Segment3D ℚ)) = 0 := by
  have h : Intercept (⟨⟨0, 0, 0⟩, ⟨1, 0, 0⟩⟩ : Segment3D ℚ) ⟨⟨0, 0, 1⟩, ⟨0, 1, 1⟩⟩
      = some ⟨0, 0, 0⟩ := by
    norm_num [Intercept, CrossProduct, ScalarProduct, Subtract, Vector3D.Length, eps,
      Vector3D.GetX, Vector3D.GetY, Vector3D.GetZ, Segment3D.GetStart, Segment3D.GetEnd]
  exact ⟨h, (Intercept_closest_points _ _ _ h).1⟩

/-- C17. The function `Intercept` is translation-equivariant: moving all four endpoints by `v`
leaves the presence of a result unchanged and moves the returned point by `v`. -/
theorem Intercept_translate (v : Vector3D K) (seg1 seg2 : Segment3D K) :
    Intercept (translate v seg1) (translate v seg2)
      = (Intercept seg1 seg2).map (translatePoint v) := by
  rw [Intercept_unfold (translate v seg1) (translate v seg2), Intercept_unfold seg1 seg2,
    crossNormSq_translate, t1_translate, t2_translate, pointAt_translate]
  by_cases hm : crossNormSq seg1 seg2 < eps
  · rw [if_pos hm, if_pos hm, Option.map_none']
  · rw [if_neg hm, if_neg hm]
    by_cases hb : t1 seg1 seg2 ≥ 0 ∧ t1 seg1 seg2 ≤ 1 ∧ t2 seg1 seg2 ≥ 0 ∧ t2 seg1 seg2 ≤ 1
    · rw [if_pos hb, if_pos hb, Option.map_some']
    · rw [if_neg hb, if_neg hb, Option.map_none']

/-- C18, amended. In exact real arithmetic the function `CrossProduct` is a genuine 3-D cross
product: `CrossProduct a b` is orthogonal to `a` and to `b`, and its squared magnitude is
`a.Length * b.Length - (ScalarProduct a b)^2` (Lagrange identity). -/
theorem CrossProduct_genuine (a b : Vector3D K) :
    ScalarProduct (CrossProduct a b) a = 0 ∧
    ScalarProduct (CrossProduct a b) b = 0 ∧
    (CrossProduct a b).Length = a.Length * b.Length - (ScalarProduct a b) ^ 2 := by
  refine ⟨?_, ?_, ?_⟩ <;>
    simp only [CrossProduct, ScalarProduct, Vector3D.Length, Vector3D.GetX, Vector3D.GetY,
      Vector3D.GetZ] <;>
    ring

end Behaviour


/-! ## The program on binary64: where rounding shows -/

section Rounding

/-- C10, as stated, fails on doubles: for the finite inputs `(0,0,0)→(0,1e200,1e200)` and
`(0,0,0)→(0,1e200,2e200)` the products overflow, `crossV_length` is a NaN, the guard
`crossV_length < eps` is false, and both divisions are evaluated with a divisor that is not
`≥ eps`; the result is the null pointer. -/
theorem Intercept_total_binary64_counterexample :
    Binary64.crossNormSq ⟨⟨0, 0, 0⟩, ⟨0, 1e200, 1e200⟩⟩ ⟨⟨0, 0, 0⟩, ⟨0, 1e200, 2e200⟩⟩
      = Double.nan ∧
    Binary64.InterceptDivisors ⟨⟨0, 0, 0⟩, ⟨0, 1e200, 1e200⟩⟩ ⟨⟨0, 0, 0⟩, ⟨0, 1e200, 2e200⟩⟩
      = [Double.nan, Double.nan] ∧
    Double.ge Double.nan Binary64.eps = false ∧
    Binary64.Intercept ⟨⟨0, 0, 0⟩, ⟨0, 1e200, 1e200⟩⟩ ⟨⟨0, 0, 0⟩, ⟨0, 1e200, 2e200⟩⟩ = none := by
  decide!

/-- C11, as stated, fails on doubles: for the segment `(0,0,0)→(1e-200,0,0)` the square
underflows, `Segment3D::Length` returns `0.0`, and `start` differs from `end`. -/
theorem Segment3D_Length_binary64_counterexample :
    Binary64.Segment3D.Length ⟨⟨0, 0, 0⟩, ⟨1e-200, 0, 0⟩⟩ = 0 ∧
    Double.eq (1e-200) 0 = false ∧
    (⟨0, 0, 0⟩ : Vector3D Double) ≠ ⟨1e-200, 0, 0⟩ := by
  decide!

/-- C12, as stated, fails on doubles: `(0.2,0.8,0)→(0.9,1,0)` and `(1,0,0)→(0.9,1,0)` have the
endpoint `(0.9,1,0)` in common (`seg1.end = seg2.end`) and `m ≥ eps`, but the computed `t1` is
`1 + 2^(-52) > 1` (with `t2 = 1`) and `Intercept` returns the null pointer. -/
theorem Intercept_common_endpoint_binary64_counterexample :
    Double.ge (Binary64.crossNormSq ⟨⟨0.2, 0.8, 0⟩, ⟨0.9, 1, 0⟩⟩ ⟨⟨1, 0, 0⟩, ⟨0.9, 1, 0⟩⟩)
      Binary64.eps = true ∧
    Binary64.t1 ⟨⟨0.2, 0.8, 0⟩, ⟨0.9, 1, 0⟩⟩ ⟨⟨1, 0, 0⟩, ⟨0.9, 1, 0⟩⟩
      = Double.fin (mkRat (2 ^ 52 + 1) (2 ^ 52)) ∧
    Double.le (Binary64.t1 ⟨⟨0.2, 0.8, 0⟩, ⟨0.9, 1, 0⟩⟩ ⟨⟨1, 0, 0⟩, ⟨0.9, 1, 0⟩⟩) 1 = false ∧
    Binary64.t2 ⟨⟨0.2, 0.8, 0⟩, ⟨0.9, 1, 0⟩⟩ ⟨⟨1, 0, 0⟩, ⟨0.9, 1, 0⟩⟩ = 1 ∧
    Binary64.Intercept ⟨⟨0.2, 0.8, 0⟩, ⟨0.9, 1, 0⟩⟩ ⟨⟨1, 0, 0⟩, ⟨0.9, 1, 0⟩⟩ = none := by
  decide!

/-- C15, as stated, fails on doubles: for `A→B = (0.2,0.8,0)→(0.9,1,0)` and
`C→D = (1,0,0)→(0.9,1,0)`, `Intercept (A→B) (C→D)` is the null pointer while
`Intercept (A→B) (D→C)` returns the point `(0.8999999999999999, 1, 0)`. -/
theorem Intercept_orientation_binary64_counterexample :
    Binary64.Intercept ⟨⟨0.2, 0.8, 0⟩, ⟨0.9, 1, 0⟩⟩ ⟨⟨1, 0, 0⟩, ⟨0.9, 1, 0⟩⟩ = none ∧
    Binary64.Intercept ⟨⟨0.2, 0.8, 0⟩, ⟨0.9, 1, 0⟩⟩ ⟨⟨0.9, 1, 0⟩, ⟨1, 0, 0⟩⟩
      = some ⟨0.8999999999999999, 1, 0⟩ ∧
    Double.eq 0.8999999999999999 0.9 = false := by
  decide!

/-- C16, as stated, fails on doubles: for `(0.1,0.2,0.3)→(0.9,0.7,0.2)` and
`(0.3,0.9,0.1)→(0.6,0.1,0.5)`, `Intercept` returns a point `P`, and with
`Q = seg2.start + t2 * d2` the products `dot(P - Q, d1) = 5 * 2^(-58)` and
`dot(P - Q, d2) = 3 * 2^(-56)` are not zero. -/
theorem Intercept_closest_points_binary64_counterexample :
    Binary64.Intercept ⟨⟨0.1, 0.2, 0.3⟩, ⟨0.9, 0.7, 0.2⟩⟩ ⟨⟨0.3, 0.9, 0.1⟩, ⟨0.6, 0.1, 0.5⟩⟩
      = some (Binary64.pointAt ⟨⟨0.1, 0.2, 0.3⟩, ⟨0.9, 0.7, 0.2⟩⟩
          (Binary64.t1 ⟨⟨0.1, 0.2, 0.3⟩, ⟨0.9, 0.7, 0.2⟩⟩
            ⟨⟨0.3, 0.9, 0.1⟩, ⟨0.6, 0.1, 0.5⟩⟩)) ∧
    Binary64.ScalarProduct
      (Binary64.Subtract
        (Binary64.pointAt ⟨⟨0.1, 0.2, 0.3⟩, ⟨0.9, 0.7, 0.2⟩⟩
          (Binary64.t1 ⟨⟨0.1, 0.2, 0.3⟩, ⟨0.9, 0.7, 0.2⟩⟩ ⟨⟨0.3, 0.9, 0.1⟩, ⟨0.6, 0.1, 0.5⟩⟩))
        (Binary64.pointAt ⟨⟨0.3, 0.9, 0.1⟩, ⟨0.6, 0.1, 0.5⟩⟩
          (Binary64.t2 ⟨⟨0.1, 0.2, 0.3⟩, ⟨0.9, 0.7, 0.2⟩⟩ ⟨⟨0.3, 0.9, 0.1⟩, ⟨0.6, 0.1, 0.5⟩⟩)))
      (Binary64.Subtract ⟨0.9, 0.7, 0.2⟩ ⟨0.1, 0.2, 0.3⟩)
      = Double.fin (mkRat 5 (2 ^ 58)) ∧
    Binary64.ScalarProduct
      (Binary64.Subtract
        (Binary64.pointAt ⟨⟨0.1, 0.2, 0.3⟩, ⟨0.9, 0.7, 0.2⟩⟩
          (Binary64.t1 ⟨⟨0.1, 0.2, 0.3⟩, ⟨0.9, 0.7, 0.2⟩⟩ ⟨⟨0.3, 0.9, 0.1⟩, ⟨0.6, 0.1, 0.5⟩⟩))
        (Binary64.pointAt ⟨⟨0.3, 0.9, 0.1⟩, ⟨0.6, 0.1, 0.5⟩⟩
          (Binary64.t2 ⟨⟨0.1, 0.2, 0.3⟩, ⟨0.9, 0.7, 0.2⟩⟩ ⟨⟨0.3, 0.9, 0.1⟩, ⟨0.6, 0.1, 0.5⟩⟩)))
      (Binary64.Subtract ⟨0.6, 0.1, 0.5⟩ ⟨0.3, 0.9, 0.1⟩)
      = Double.fin (mkRat 3 (2 ^ 56)) := by
  decide!

/-- C18, as stated, fails on doubles: for `a = (0.1,0.2,0.3)` and `b = (0.4,0.5,0.7)`,
`ScalarProduct (CrossProduct a b) a` is `-2^(-59)`, not `0`, and the two sides of the Lagrange
identity are the different doubles `2017612633061983 * 2^(-59)` and
`252201579132749 * 2^(-56)`. -/
theorem CrossProduct_binary64_counterexample :
    Binary64.ScalarProduct (Binary64.CrossProduct ⟨0.1, 0.2, 0.3⟩ ⟨0.4, 0.5, 0.7⟩)
      ⟨0.1, 0.2, 0.3⟩ = Double.fin (mkRat (-1) (2 ^ 59)) ∧
    Binary64.Vector3D.Length (Binary64.CrossProduct ⟨0.1, 0.2, 0.3⟩ ⟨0.4, 0.5, 0.7⟩)
      = Double.fin (mkRat 2017612633061983 (2 ^ 59)) ∧
    Binary64.Vector3D.Length ⟨0.1, 0.2, 0.3⟩ * Binary64.Vector3D.Length ⟨0.4, 0.5, 0.7⟩
        - Binary64.ScalarProduct ⟨0.1, 0.2, 0.3⟩ ⟨0.4, 0.5, 0.7⟩
          * Binary64.ScalarProduct ⟨0.1, 0.2, 0.3⟩ ⟨0.4, 0.5, 0.7⟩
      = Double.fin (mkRat 252201579132749 (2 ^ 56)) := by
  decide!

end Rounding

end LedasTechTask
